import Mathlib

/-!
Shallow embedding of the conclave API server (src/conclave_api/src): the data
model (models.rs), error taxonomy (errors.rs), the transactional repository
operations (database.rs), the room registry (state.rs) and the service handlers
(websocket.rs, handlers.rs).

Modelling conventions:
* `uuid::Uuid` values are abstracted to naturals drawn from a fresh-id counter
  (`DB.nextId`), so `Uuid::new_v4()` becomes `freshId`.
* Clerk user ids (strings in the source) are abstracted to naturals.
* SQLite tables are lists of rows in insertion order; `SELECT ... fetch_optional`
  is `List.find?`, `COUNT(*)` is `List.length` of a `filter`, `DELETE` is
  `filter`, row `UPDATE` is `map`.
* SQLite integer arithmetic (64-bit) is modelled with `Int`.
* `Utc::now()` timestamps are abstract ticks passed as a `now : Nat` argument.
* Every repository operation returns `Except ApiError α × DB`; an error result
  carries the unchanged input database, modelling the transaction rollback that
  an early `return Err(..)` performs before `tx.commit()`.
-/

namespace Conclave

/-- Uuid (`uuid::Uuid` in the source), abstracted to a natural drawn from the
fresh-id counter. -/
abbrev Uuid := Nat

/-- A Clerk user id (`clerk_user_id: String` in the source), abstracted. -/
abbrev UserId := Nat

/-- models.rs `Game`. `status` is `"active"` or `"finished"`. -/
structure Game where
  id : Uuid
  name : String
  status : String
  startingLife : Int
  createdAt : Nat
  finishedAt : Option Nat
deriving DecidableEq, Repr

/-- models.rs `Player`. -/
structure Player where
  id : Uuid
  gameId : Uuid
  clerkUserId : UserId
  currentLife : Int
  position : Int
  isEliminated : Bool
deriving DecidableEq, Repr

/-- models.rs `LifeChange`. -/
structure LifeChange where
  id : Uuid
  gameId : Uuid
  playerId : Uuid
  changeAmount : Int
  newLifeTotal : Int
  createdAt : Nat
deriving DecidableEq, Repr

/-- models.rs / database.rs `CommanderDamage` row. -/
structure CommanderDamage where
  id : Uuid
  gameId : Uuid
  fromPlayerId : Uuid
  toPlayerId : Uuid
  commanderNumber : Int
  damage : Int
  createdAt : Nat
  updatedAt : Nat
deriving DecidableEq, Repr

/-- errors.rs `ApiError`. The infrastructure variants (`Database`, `WebSocket`,
`Internal`) arise only from I/O failures, which the embedding does not model. -/
inductive ApiError where
  | gameNotFound
  | playerNotFound
  | gameNotActive
  | badRequest (msg : String)
deriving DecidableEq, Repr

/-- models.rs `MAX_PLAYERS_PER_GAME`. -/
def MAX_PLAYERS_PER_GAME : Nat := 8

/-- models.rs `DEFAULT_STARTING_LIFE`. -/
def DEFAULT_STARTING_LIFE : Int := 20

/-- The persisted store (the four SQLite tables, rows in insertion order)
together with the process-side fresh-uuid source. -/
structure DB where
  games : List Game
  players : List Player
  lifeChanges : List LifeChange
  commanderDamage : List CommanderDamage
  nextId : Nat
deriving DecidableEq, Repr

/-- Model of `Uuid::new_v4()`: draw a fresh id. -/
def freshId (db : DB) : Uuid × DB :=
  (db.nextId, { db with nextId := db.nextId + 1 })

/-- database.rs `get_game_by_id` / `get_game_by_id_in_tx`:
`SELECT * FROM games WHERE id = ?`, `fetch_optional`. -/
def get_game_by_id (db : DB) (gameId : Uuid) : Except ApiError Game :=
  match db.games.find? (fun g => g.id == gameId) with
  | some g => .ok g
  | none => .error .gameNotFound

/-- Insert a player into a list sorted by `position` (model of `ORDER BY position`). -/
def insertByPos (p : Player) : List Player → List Player
  | [] => [p]
  | q :: l => if p.position ≤ q.position then p :: q :: l else q :: insertByPos p l

/-- Sort players by `position`. -/
def sortByPos (l : List Player) : List Player := l.foldr insertByPos []

/-- database.rs `get_players_in_game`:
`SELECT * FROM players WHERE game_id = ? ORDER BY position`. -/
def get_players_in_game (db : DB) (gameId : Uuid) : List Player :=
  sortByPos (db.players.filter (fun p => p.gameId == gameId))

/-- Insert a life change into a list sorted by `createdAt` descending. -/
def insertByCreatedDesc (c : LifeChange) : List LifeChange → List LifeChange
  | [] => [c]
  | d :: l => if d.createdAt ≤ c.createdAt then c :: d :: l else d :: insertByCreatedDesc c l

/-- database.rs `get_recent_life_changes`:
`SELECT * FROM life_changes WHERE game_id = ? ORDER BY created_at DESC LIMIT ?`. -/
def get_recent_life_changes (db : DB) (gameId : Uuid) (limit : Nat) : List LifeChange :=
  ((db.lifeChanges.filter (fun c => c.gameId == gameId)).foldr insertByCreatedDesc []).take limit

/-- Lexicographic order on `(from_player_id, to_player_id, commander_number)`. -/
def cdLe (a b : CommanderDamage) : Bool :=
  a.fromPlayerId < b.fromPlayerId ||
    (a.fromPlayerId == b.fromPlayerId &&
      (a.toPlayerId < b.toPlayerId ||
        (a.toPlayerId == b.toPlayerId && a.commanderNumber ≤ b.commanderNumber)))

/-- Insertion step for the commander-damage sort. -/
def insertByCdKey (e : CommanderDamage) : List CommanderDamage → List CommanderDamage
  | [] => [e]
  | d :: l => if cdLe e d then e :: d :: l else d :: insertByCdKey e l

/-- database.rs `get_commander_damage_for_game`: `SELECT * FROM commander_damage
WHERE game_id = ? ORDER BY from_player_id, to_player_id, commander_number`. -/
def get_commander_damage_for_game (db : DB) (gameId : Uuid) : List CommanderDamage :=
  (db.commanderDamage.filter (fun e => e.gameId == gameId)).foldr insertByCdKey []

/-- One iteration of the insert loop in database.rs
`initialize_commander_damage_for_player_in_tx`: the two slot-1 inserts
(new player → existing player, existing player → new player), damage 0. -/
def initCdStep (gameId playerId : Uuid) (now : Nat) (db : DB) (q : Player) : DB :=
  let (i1, db1) := freshId db
  let e1 : CommanderDamage := ⟨i1, gameId, playerId, q.id, 1, 0, now, now⟩
  let db2 := { db1 with commanderDamage := db1.commanderDamage ++ [e1] }
  let (i2, db3) := freshId db2
  let e2 : CommanderDamage := ⟨i2, gameId, q.id, playerId, 1, 0, now, now⟩
  { db3 with commanderDamage := db3.commanderDamage ++ [e2] }

/-- database.rs `initialize_commander_damage_for_player_in_tx`. -/
def initialize_commander_damage_for_player_in_tx
    (db : DB) (gameId playerId : Uuid) (now : Nat) : DB :=
  let existing := db.players.filter (fun p => p.gameId == gameId && p.id != playerId)
  existing.foldl (initCdStep gameId playerId now) db

/-- database.rs `join_game_in_tx`. -/
def join_game_in_tx (db : DB) (gameId : Uuid) (clerkUserId : UserId) (now : Nat) :
    Except ApiError Player × DB :=
  match get_game_by_id db gameId with
  | .error e => (.error e, db)
  | .ok game =>
    if game.status == "finished" then
      (.error (.badRequest "Cannot join finished game"), db)
    else
      let already :=
        (db.players.filter (fun p => p.gameId == gameId && p.clerkUserId == clerkUserId)).length
      if already > 0 then
        (.error (.badRequest "User already in game"), db)
      else
        let playerCount := (db.players.filter (fun p => p.gameId == gameId)).length
        if MAX_PLAYERS_PER_GAME ≤ playerCount then
          (.error (.badRequest "Game is full (max 8 players)"), db)
        else
          let position : Int := (playerCount : Int) + 1
          let (pid, db1) := freshId db
          let player : Player := ⟨pid, gameId, clerkUserId, game.startingLife, position, false⟩
          let db2 := { db1 with players := db1.players ++ [player] }
          let db3 := initialize_commander_damage_for_player_in_tx db2 gameId player.id now
          (.ok player, db3)

/-- database.rs `join_game`: `join_game_in_tx` inside its own transaction. -/
def join_game (db : DB) (gameId : Uuid) (clerkUserId : UserId) (now : Nat) :
    Except ApiError Player × DB :=
  join_game_in_tx db gameId clerkUserId now

/-- database.rs `create_game`: duplicate-active-name check, insert the `Game` row
(status `"active"`), seat the creator via `join_game_in_tx`, commit. -/
def create_game (db : DB) (name : String) (startingLife : Int) (creator : UserId)
    (now : Nat) : Except ApiError Game × DB :=
  if ((db.games.filter (fun g => g.name == name && g.status != "finished")).length > 0) then
    (.error (.badRequest "Game name already exists"), db)
  else
    let (gid, db1) := freshId db
    let game : Game := ⟨gid, name, "active", startingLife, now, none⟩
    let db2 := { db1 with games := db1.games ++ [game] }
    match join_game_in_tx db2 game.id creator now with
    | (.ok _, db3) => (.ok game, db3)
    | (.error e, _) => (.error e, db)

/-- The position compaction of database.rs `leave_game`:
`UPDATE players SET position = position - 1 WHERE game_id = ? AND position > ?`,
applied to one row. -/
def leaveShift (gameId : Uuid) (pr : Player) (p : Player) : Player :=
  if p.gameId == gameId && pr.position < p.position
    then { p with position := p.position - 1 } else p

/-- database.rs `leave_game`: delete the player's commander-damage rows (both
directions), delete the player row, shift higher positions down by one. -/
def leave_game (db : DB) (gameId : Uuid) (clerkUserId : UserId) :
    Except ApiError Unit × DB :=
  match get_game_by_id db gameId with
  | .error e => (.error e, db)
  | .ok game =>
    if game.status == "finished" then
      (.error (.badRequest "Cannot leave finished game"), db)
    else
      match db.players.find? (fun p => p.gameId == gameId && p.clerkUserId == clerkUserId) with
      | none => (.error .playerNotFound, db)
      | some pr =>
        let cd1 := db.commanderDamage.filter (fun cd => !(cd.gameId == gameId &&
          (cd.fromPlayerId == pr.id || cd.toPlayerId == pr.id)))
        let db1 := { db with commanderDamage := cd1 }
        let ps2 := db1.players.filter
          (fun p => !(p.gameId == gameId && p.clerkUserId == clerkUserId))
        let db2 := { db1 with players := ps2 }
        let ps3 := db2.players.map (leaveShift gameId pr)
        let db3 := { db2 with players := ps3 }
        (.ok (), db3)

/-- database.rs `update_player_life`: atomic `UPDATE ... SET current_life =
current_life + ? WHERE id = ? RETURNING *` plus one `life_changes` insert. -/
def update_player_life (db : DB) (playerId : Uuid) (changeAmount : Int) (now : Nat) :
    Except ApiError (Player × LifeChange) × DB :=
  match db.players.find? (fun p => p.id == playerId) with
  | none => (.error .playerNotFound, db)
  | some p =>
    let updated := { p with currentLife := p.currentLife + changeAmount }
    let ps1 := db.players.map (fun q =>
      if q.id == playerId
        then { q with currentLife := q.currentLife + changeAmount } else q)
    let db1 := { db with players := ps1 }
    let (lcId, db2) := freshId db1
    let lc : LifeChange := ⟨lcId, updated.gameId, updated.id, changeAmount,
      updated.currentLife, now⟩
    let db3 := { db2 with lifeChanges := db2.lifeChanges ++ [lc] }
    (.ok (updated, lc), db3)

/-- database.rs `end_game`: an unconditional `UPDATE` executed directly on the
pool (no transaction) followed by a re-read of the game. The `UPDATE` takes
effect even when the subsequent read fails. -/
def end_game (db : DB) (gameId : Uuid) (now : Nat) : Except ApiError Game × DB :=
  let gs1 := db.games.map (fun g =>
    if g.id == gameId
      then { g with status := "finished", finishedAt := some now } else g)
  let db1 := { db with games := gs1 }
  match get_game_by_id db1 gameId with
  | .ok g => (.ok g, db1)
  | .error e => (.error e, db1)

/-- database.rs `update_commander_damage`: range, slot, membership and
self-damage validation in source order, then the keyed upsert
(`ON CONFLICT(game_id, from_player_id, to_player_id, commander_number)`). -/
def update_commander_damage (db : DB) (gameId fromPlayerId toPlayerId : Uuid)
    (commanderNumber newDamage : Int) (now : Nat) :
    Except ApiError CommanderDamage × DB :=
  if newDamage < 0 then
    (.error (.badRequest "Commander damage cannot be negative"), db)
  else if 999 < newDamage then
    (.error (.badRequest "Commander damage cannot exceed 999"), db)
  else if commanderNumber != 1 && commanderNumber != 2 then
    (.error (.badRequest "Commander number must be 1 or 2"), db)
  else
    let fromPlayerExists : Bool :=
      decide (0 < (db.players.filter (fun p => p.id == fromPlayerId && p.gameId == gameId)).length)
    let toPlayerExists : Bool :=
      decide (0 < (db.players.filter (fun p => p.id == toPlayerId && p.gameId == gameId)).length)
    if !fromPlayerExists || !toPlayerExists then
      (.error (.badRequest "One or both players not found in game"), db)
    else if fromPlayerId == toPlayerId then
      (.error (.badRequest "Players cannot deal commander damage to themselves"), db)
    else
      match db.commanderDamage.find? (fun cd => cd.gameId == gameId &&
          cd.fromPlayerId == fromPlayerId && cd.toPlayerId == toPlayerId &&
          cd.commanderNumber == commanderNumber) with
      | some old =>
        let upd := { old with damage := newDamage, updatedAt := now }
        let cd1 := db.commanderDamage.map (fun cd =>
          if cd.gameId == gameId && cd.fromPlayerId == fromPlayerId &&
              cd.toPlayerId == toPlayerId && cd.commanderNumber == commanderNumber
            then { cd with damage := newDamage, updatedAt := now } else cd)
        let db1 := { db with commanderDamage := cd1 }
        (.ok upd, db1)
      | none =>
        let (cid, db1) := freshId db
        let e : CommanderDamage :=
          ⟨cid, gameId, fromPlayerId, toPlayerId, commanderNumber, newDamage, now, now⟩
        (.ok e, { db1 with commanderDamage := db1.commanderDamage ++ [e] })

/-- database.rs `toggle_partner`'s `INSERT OR IGNORE`, keyed by the unique index
`(game_id, from_player_id, to_player_id, commander_number)`. The fresh uuid that
the source draws even on the ignore branch is not observable state, so the
counter is consumed only when a row is actually inserted. -/
def insertOrIgnoreCd (db : DB) (gameId fr toP : Uuid) (num : Int) (now : Nat) : DB :=
  if (db.commanderDamage.filter (fun cd => cd.gameId == gameId &&
      cd.fromPlayerId == fr && cd.toPlayerId == toP &&
      cd.commanderNumber == num)).length > 0 then db
  else
    let (cid, db1) := freshId db
    { db1 with commanderDamage := db1.commanderDamage ++ [⟨cid, gameId, fr, toP, num, 0, now, now⟩] }

/-- One iteration of the enable loop in database.rs `toggle_partner`: the two
slot-2 `INSERT OR IGNORE`s against one other player. -/
def togglePartnerStep (gameId playerId : Uuid) (now : Nat) (db : DB) (q : Player) : DB :=
  insertOrIgnoreCd (insertOrIgnoreCd db gameId playerId q.id 2 now) gameId q.id playerId 2 now

/-- database.rs `toggle_partner`. -/
def toggle_partner (db : DB) (gameId playerId : Uuid) (enablePartner : Bool) (now : Nat) :
    Except ApiError Unit × DB :=
  let playerExists : Bool :=
    decide (0 < (db.players.filter (fun p => p.id == playerId && p.gameId == gameId)).length)
  if !playerExists then
    (.error (.badRequest "Player not found in game"), db)
  else if enablePartner then
    let others := db.players.filter (fun p => p.gameId == gameId && p.id != playerId)
    (.ok (), others.foldl (togglePartnerStep gameId playerId now) db)
  else
    let cd1 := db.commanderDamage.filter (fun cd =>
      !(cd.gameId == gameId && cd.commanderNumber == 2 &&
        (cd.fromPlayerId == playerId || cd.toPlayerId == playerId)))
    (.ok (), { db with commanderDamage := cd1 })

/-- models.rs / database.rs `GameState` as constructed by `get_game_state`. -/
structure GameState where
  game : Game
  players : List Player
  recentChanges : List LifeChange
  commanderDamage : List CommanderDamage
deriving DecidableEq, Repr

/-- database.rs `get_game_state`. -/
def get_game_state (db : DB) (gameId : Uuid) : Except ApiError GameState :=
  match get_game_by_id db gameId with
  | .error e => .error e
  | .ok game => .ok ⟨game, get_players_in_game db gameId,
      get_recent_life_changes db gameId 20, get_commander_damage_for_game db gameId⟩

/-- The streaming event frames, as constructed at the publish sites in
websocket.rs and handlers.rs. -/
inductive WebSocketMessage where
  | lifeUpdate (gameId playerId : Uuid) (newLife changeAmount : Int)
  | playerJoined (gameId : Uuid) (player : Player)
  | playerLeft (gameId playerId : Uuid)
  | gameStarted (gameState : GameState)
  | gameEnded (gameId : Uuid) (winner : Option Player)
  | commanderDamageUpdate (gameId fromPlayerId toPlayerId : Uuid)
      (commanderNumber newDamage damageAmount : Int)
  | partnerToggled (gameId playerId : Uuid) (hasPartner : Bool)
  | errorMsg (message : String)
deriving DecidableEq, Repr

/-- The inbound protocol requests dispatched by websocket.rs
`handle_websocket_message`. -/
inductive WebSocketRequest where
  | updateLife (playerId : Uuid) (changeAmount : Int)
  | joinGame (clerkUserId : UserId)
  | leaveGame (playerId : Uuid)
  | getGameState
  | endGame
  | setCommanderDamage (fromPlayerId toPlayerId : Uuid) (commanderNumber newDamage : Int)
  | updateCommanderDamage (fromPlayerId toPlayerId : Uuid) (commanderNumber damageAmount : Int)
  | togglePartner (playerId : Uuid) (enablePartner : Bool)
deriving DecidableEq, Repr

/-- The externally observable effects of a service handler, in program order:
a committed database transaction, and an event published to the game's room. -/
inductive Effect where
  | commit (db : DB)
  | publish (msg : WebSocketMessage)
deriving DecidableEq, Repr

/-- A handler's outcome: its result, the database after the handler returns
(errors roll uncommitted work back), and its effect trace in program order. -/
abbrev HResult := Except ApiError Unit × DB × List Effect

/-- websocket.rs `handle_life_update`: persist via `update_player_life`, then
broadcast the `LifeUpdate` event. -/
def handle_life_update (db : DB) (playerId : Uuid) (changeAmount : Int)
    (gameId : Uuid) (now : Nat) : HResult :=
  match update_player_life db playerId changeAmount now with
  | (.error e, db') => (.error e, db', [])
  | (.ok (p, _lc), db') =>
    (.ok (), db', [.commit db',
      .publish (.lifeUpdate gameId playerId p.currentLife changeAmount)])

/-- websocket.rs `handle_join_game`: persist via `join_game`, then broadcast
`PlayerJoined`; on error, log and return the error without publishing. -/
def handle_join_game (db : DB) (clerkUserId : UserId) (gameId : Uuid) (now : Nat) :
    HResult :=
  match join_game db gameId clerkUserId now with
  | (.ok player, db') =>
    (.ok (), db', [.commit db', .publish (.playerJoined gameId player)])
  | (.error e, db') => (.error e, db', [])

/-- websocket.rs `handle_leave_game`: resolve the player id to a user, persist
via `leave_game`, then broadcast `PlayerLeft`. -/
def handle_leave_game (db : DB) (playerId : Uuid) (gameId : Uuid) : HResult :=
  match (get_players_in_game db gameId).find? (fun p => p.id == playerId) with
  | none => (.error .playerNotFound, db, [])
  | some player =>
    match leave_game db gameId player.clerkUserId with
    | (.error e, db') => (.error e, db', [])
    | (.ok (), db') => (.ok (), db', [.commit db', .publish (.playerLeft gameId playerId)])

/-- websocket.rs `handle_get_game_state`: a read followed by a `GameStarted`
broadcast (no mutation, hence no commit in its trace). -/
def handle_get_game_state (db : DB) (gameId : Uuid) : HResult :=
  match get_game_state db gameId with
  | .error e => (.error e, db, [])
  | .ok gs => (.ok (), db, [.publish (.gameStarted gs)])

/-- Rust `Iterator::max_by_key` on `current_life`: the last maximal element. -/
def maxByLife (l : List Player) : Option Player :=
  l.foldl (fun acc p => match acc with
    | none => some p
    | some q => if q.currentLife ≤ p.currentLife then some p else some q) none

/-- websocket.rs `handle_end_game`: `end_game` (whose `UPDATE` commits even on
the not-found path), winner = player with highest life, broadcast `GameEnded`.
The delayed room-teardown task spawned afterwards is outside this model. -/
def handle_end_game (db : DB) (gameId : Uuid) (now : Nat) : HResult :=
  match end_game db gameId now with
  | (.error e, db') => (.error e, db', [.commit db'])
  | (.ok _, db') =>
    let winner := maxByLife (get_players_in_game db' gameId)
    (.ok (), db', [.commit db', .publish (.gameEnded gameId winner)])

/-- The lookup shared by the commander-damage handlers: the first row of the
ordered per-game listing matching `(from, to, commander_number)`. -/
def findCd (l : List CommanderDamage) (fr toP : Uuid) (num : Int) :
    Option CommanderDamage :=
  l.find? (fun cd => cd.fromPlayerId == fr && cd.toPlayerId == toP &&
    cd.commanderNumber == num)

/-- websocket.rs `handle_set_commander_damage`: active-game check, persist via
`update_commander_damage`, re-read the (already updated) damage to compute the
broadcast delta, broadcast `CommanderDamageUpdate`. -/
def handle_set_commander_damage (db : DB) (fromPlayerId toPlayerId : Uuid)
    (commanderNumber newDamage : Int) (gameId : Uuid) (now : Nat) : HResult :=
  match get_game_by_id db gameId with
  | .error e => (.error e, db, [])
  | .ok game =>
    if game.status != "active" then (.error .gameNotActive, db, [])
    else
      match update_commander_damage db gameId fromPlayerId toPlayerId
          commanderNumber newDamage now with
      | (.error e, db') => (.error e, db', [])
      | (.ok _upd, db') =>
        let previousDamage := ((findCd (get_commander_damage_for_game db' gameId)
          fromPlayerId toPlayerId commanderNumber).map (·.damage)).getD 0
        let damageAmount := newDamage - previousDamage
        (.ok (), db', [.commit db', .publish (.commanderDamageUpdate gameId
          fromPlayerId toPlayerId commanderNumber newDamage damageAmount)])

/-- websocket.rs `handle_update_commander_damage`: active-game check, read the
current damage, persist the incremented total, broadcast. -/
def handle_update_commander_damage (db : DB) (fromPlayerId toPlayerId : Uuid)
    (commanderNumber damageAmount : Int) (gameId : Uuid) (now : Nat) : HResult :=
  match get_game_by_id db gameId with
  | .error e => (.error e, db, [])
  | .ok game =>
    if game.status != "active" then (.error .gameNotActive, db, [])
    else
      let currentDamage := ((findCd (get_commander_damage_for_game db gameId)
        fromPlayerId toPlayerId commanderNumber).map (·.damage)).getD 0
      let newDamage := currentDamage + damageAmount
      match update_commander_damage db gameId fromPlayerId toPlayerId
          commanderNumber newDamage now with
      | (.error e, db') => (.error e, db', [])
      | (.ok _upd, db') =>
        (.ok (), db', [.commit db', .publish (.commanderDamageUpdate gameId
          fromPlayerId toPlayerId commanderNumber newDamage damageAmount)])

/-- websocket.rs `handle_toggle_partner`: active-game check, persist via
`toggle_partner`, broadcast `PartnerToggled`. -/
def handle_toggle_partner (db : DB) (playerId : Uuid) (enablePartner : Bool)
    (gameId : Uuid) (now : Nat) : HResult :=
  match get_game_by_id db gameId with
  | .error e => (.error e, db, [])
  | .ok game =>
    if game.status != "active" then (.error .gameNotActive, db, [])
    else
      match toggle_partner db gameId playerId enablePartner now with
      | (.error e, db') => (.error e, db', [])
      | (.ok (), db') =>
        (.ok (), db', [.commit db',
          .publish (.partnerToggled gameId playerId enablePartner)])

/-- handlers.rs `update_life` (the HTTP path): delta bound check (|Δ| ≤ 100),
active-game check, persist via `update_player_life`, broadcast `LifeUpdate`. -/
def handlers_update_life (db : DB) (gameId playerId : Uuid) (changeAmount : Int)
    (now : Nat) : HResult :=
  if 100 < changeAmount.natAbs then
    (.error (.badRequest "Life change too large (max ±100)"), db, [])
  else
    match get_game_by_id db gameId with
    | .error e => (.error e, db, [])
    | .ok game =>
      if game.status != "active" then (.error .gameNotActive, db, [])
      else
        match update_player_life db playerId changeAmount now with
        | (.error e, db') => (.error e, db', [])
        | (.ok (p, _lc), db') =>
          (.ok (), db', [.commit db',
            .publish (.lifeUpdate gameId playerId p.currentLife changeAmount)])

/-- websocket.rs `handle_websocket_message`: the serde_json decode (abstracted
to an `Option WebSocketRequest`) followed by the dispatch match. -/
def handle_websocket_message (db : DB) (req : Option WebSocketRequest)
    (gameId : Uuid) (now : Nat) : HResult :=
  match req with
  | none => (.error (.badRequest "Invalid JSON"), db, [])
  | some r =>
    match r with
    | .updateLife pid c => handle_life_update db pid c gameId now
    | .joinGame u => handle_join_game db u gameId now
    | .leaveGame pid => handle_leave_game db pid gameId
    | .getGameState => handle_get_game_state db gameId
    | .endGame => handle_end_game db gameId now
    | .setCommanderDamage fr toP num dmg =>
      handle_set_commander_damage db fr toP num dmg gameId now
    | .updateCommanderDamage fr toP num amt =>
      handle_update_commander_damage db fr toP num amt gameId now
    | .togglePartner pid en => handle_toggle_partner db pid en gameId now

/-- One inbound websocket frame, with the serde_json decode result of a text
frame abstracted: `text none` is a frame that does not decode. -/
inductive Frame where
  | text (req : Option WebSocketRequest)
  | close
  | wsFailure
  | other
deriving DecidableEq, Repr

/-- What the receiver task did: the final database, the frames it sent directly
to its own client, and the commit/publish effects of handled requests. -/
structure RecvResult where
  db : DB
  replies : List WebSocketMessage
  effects : List Effect
deriving DecidableEq, Repr

/-- websocket.rs `receiver_task` loop: text frames are dispatched and a handler
error is only logged (the loop continues); `Close` frames and transport errors
break the loop; other frame kinds are ignored. The receiver task never sends a
frame directly to its client. -/
def receiver_task (db : DB) (gameId : Uuid) (now : Nat) : List Frame → RecvResult
  | [] => ⟨db, [], []⟩
  | .text req :: rest =>
    let r0 := handle_websocket_message db req gameId now
    let r := receiver_task r0.2.1 gameId now rest
    ⟨r.db, r.replies, r0.2.2 ++ r.effects⟩
  | .close :: _ => ⟨db, [], []⟩
  | .wsFailure :: _ => ⟨db, [], []⟩
  | .other :: rest => receiver_task db gameId now rest

/-- state.rs `GameRoom`: the broadcast channel is modelled as the list of
messages sent into it. -/
structure GameRoom where
  connectedUsers : List UserId
  channel : List WebSocketMessage
deriving DecidableEq, Repr

/-- state.rs `AppState.game_rooms`: the room registry. -/
abbrev Rooms := List (Uuid × GameRoom)

/-- state.rs `broadcast_to_game`: the room is looked up and `.expect`ed — a
missing room panics, modelled as `none`; otherwise the message is sent into the
room's channel. -/
def broadcast_to_game (rooms : Rooms) (gameId : Uuid) (msg : WebSocketMessage) :
    Option Rooms :=
  match rooms.find? (fun r => r.fst == gameId) with
  | none => none
  | some _ => some (rooms.map (fun r =>
      if r.fst == gameId then (r.fst, ⟨r.snd.connectedUsers, r.snd.channel ++ [msg]⟩)
      else r))

/-- state.rs `get_game_receiver`: the same `.expect` pattern — a missing room
panics (`none`); otherwise a subscription to the room's channel is returned. -/
def get_game_receiver (rooms : Rooms) (gameId : Uuid) : Option GameRoom :=
  (rooms.find? (fun r => r.fst == gameId)).map (·.snd)

/-! ### Specification-side vocabulary used by the theorems. -/

/-- The players of one game, in row (insertion) order. -/
def gPlayers (db : DB) (g : Uuid) : List Player :=
  db.players.filter (fun p => p.gameId == g)

/-- The positions of one game's players, in row order. -/
def posList (db : DB) (g : Uuid) : List Int :=
  (gPlayers db g).map (·.position)

/-- The list `[a, a+1, ..., a+k-1]`. -/
def ascInt : Int → Nat → List Int
  | _, 0 => []
  | a, k + 1 => a :: ascInt (a + 1) k

/-- Sequential `join_game` calls, one per listed user, stopping at the first
failure (the claim's "N sequential successful join_game calls"). -/
def joinAll (db : DB) (g : Uuid) (now : Nat) : List UserId → Except ApiError DB
  | [] => .ok db
  | u :: rest =>
    match join_game db g u now with
    | (.ok _, db') => joinAll db' g now rest
    | (.error e, _) => .error e

/-- Some commander-damage row with the given key exists. -/
def cdKey (db : DB) (g fr toP : Uuid) (num : Int) : Prop :=
  ∃ e ∈ db.commanderDamage,
    e.gameId = g ∧ e.fromPlayerId = fr ∧ e.toPlayerId = toP ∧ e.commanderNumber = num

/-- Some commander-damage row with the given key exists and carries damage 0. -/
def cdZero (db : DB) (g fr toP : Uuid) (num : Int) : Prop :=
  ∃ e ∈ db.commanderDamage,
    e.gameId = g ∧ e.fromPlayerId = fr ∧ e.toPlayerId = toP ∧
      e.commanderNumber = num ∧ e.damage = 0

/-- The slot-1 bootstrap invariant: every ordered pair of distinct co-present
players has a slot-1 entry with damage 0. -/
def slot1ZeroSym (db : DB) (g : Uuid) : Prop :=
  ∀ a ∈ gPlayers db g, ∀ b ∈ gPlayers db g, a.id ≠ b.id → cdZero db g a.id b.id 1

/-- Fresh-id well-formedness: every player id was drawn from the counter. -/
def playersFresh (db : DB) : Prop := ∀ p ∈ db.players, p.id < db.nextId

/-- Fresh-id well-formedness: every game id was drawn from the counter. -/
def gamesFresh (db : DB) : Prop := ∀ g ∈ db.games, g.id < db.nextId

/-! ### General helper lemmas -/

theorem length_filter_pos_iff {α : Type} (l : List α) (p : α → Bool) :
    0 < (l.filter p).length ↔ ∃ x ∈ l, p x = true := by
  rw [← List.countP_eq_length_filter]
  exact List.countP_pos_iff

theorem ascInt_length (a : Int) (k : Nat) : (ascInt a k).length = k := by
  induction k generalizing a with
  | zero => rfl
  | succ k ih => simp only [ascInt, List.length_cons, ih]

theorem ascInt_snoc (a : Int) (k : Nat) :
    ascInt a (k + 1) = ascInt a k ++ [a + (k : Int)] := by
  induction k generalizing a with
  | zero => simp [ascInt]
  | succ k ih =>
    rw [ascInt, ih (a + 1), ascInt, List.cons_append]
    have h : a + 1 + (k : Int) = a + ((k : Nat) + 1 : Nat) := by push_cast; ring
    rw [h]

theorem ascInt_mem_le (a : Int) (k : Nat) : ∀ x ∈ ascInt a k, a ≤ x := by
  induction k generalizing a with
  | zero => intro x hx; cases hx
  | succ k ih =>
    intro x hx
    rcases List.mem_cons.mp hx with rfl | hx
    · exact le_refl _
    · exact le_trans (by omega) (ih (a + 1) x hx)

/-! ### C7: malformed inbound frames -/

/-- C7 (counterexample): on a frame that does not decode, the receiver task in
the source only logs the handler error — it sends no local error reply to the
client, contradicting the claim that a reply is sent. -/
theorem c7_no_error_reply_counterexample :
    ¬ ∃ m, m ∈ (receiver_task ⟨[], [], [], [], 0⟩ 0 0 [Frame.text none]).replies := by
  intro ⟨m, hm⟩
  simp [receiver_task, handle_websocket_message] at hm

/-- C7 (amended): a frame that fails to decode is skipped after logging — the
receiver continues with the remaining frames exactly as if the malformed frame
had not arrived: no reply is sent for it, no event is published, and neither
the connection, the database, nor the room is affected. -/
theorem c7_malformed_frame_skipped (db : DB) (g : Uuid) (now : Nat)
    (rest : List Frame) :
    receiver_task db g now (Frame.text none :: rest) = receiver_task db g now rest := rfl

/-! ### C8: publishing to an absent room -/

/-- C8: `broadcast_to_game` (and `get_game_receiver`) hit their `.expect` panic
branch — an error condition, not a silent success — exactly when the registry
has no room for the game; whenever a room exists (callers having created or
subscribed first), the failure branch is unreachable and the message is
delivered into the room's channel. -/
theorem c8_broadcast_requires_room (rooms : Rooms) (g : Uuid) (m : WebSocketMessage) :
    (broadcast_to_game rooms g m = none ↔ rooms.find? (fun r => r.fst == g) = none) ∧
    (get_game_receiver rooms g = none ↔ rooms.find? (fun r => r.fst == g) = none) := by
  constructor
  · unfold broadcast_to_game
    cases h : rooms.find? (fun r => r.fst == g) <;> simp
  · unfold get_game_receiver
    cases h : rooms.find? (fun r => r.fst == g) <;> simp

theorem find?_cons_eq {α : Type} (p : α → Bool) (a : α) (l : List α) :
    (a :: l).find? p = if p a then some a else l.find? p := by
  by_cases h : p a
  · rw [List.find?_cons_of_pos _ h, if_pos h]
  · rw [List.find?_cons_of_neg _ (by simpa using h), if_neg (by simpa using h)]

theorem filter_cons_eq {α : Type} (p : α → Bool) (a : α) (l : List α) :
    (a :: l).filter p = if p a then a :: l.filter p else l.filter p := by
  by_cases h : p a
  · rw [List.filter_cons_of_pos h, if_pos h]
  · rw [List.filter_cons_of_neg (by simpa using h), if_neg h]

theorem find?_map_life (pid : Uuid) (c : Int) :
    ∀ (l : List Player) (p : Player), l.find? (fun q => q.id == pid) = some p →
      (l.map (fun q => if q.id == pid
        then { q with currentLife := q.currentLife + c } else q)).find?
        (fun q => q.id == pid) = some { p with currentLife := p.currentLife + c }
  | [], p, hf => by simp at hf
  | a :: t, p, hf => by
    rw [find?_cons_eq] at hf
    by_cases ha : (a.id == pid) = true
    · rw [if_pos ha] at hf
      obtain rfl := Option.some.inj hf
      have ha' : a.id = pid := by simpa using ha
      simp [find?_cons_eq, ha']
    · rw [if_neg ha] at hf
      have hp : p.id = pid := by simpa using List.find?_some hf
      simp only [List.map_cons, find?_cons_eq]
      have hcond : ¬(((if (a.id == pid) = true
          then ({ a with currentLife := a.currentLife + c } : Player)
          else a).id == pid) = true) := by rw [if_neg ha]; exact ha
      rw [if_neg hcond, List.find?_map]
      have hcongr : ((fun q => q.id == pid) ∘ (fun q => if (q.id == pid) = true
          then ({ q with currentLife := q.currentLife + c } : Player) else q)) =
          fun q => q.id == pid := by
        funext q
        by_cases hq : (q.id == pid) = true <;> simp [Function.comp, hq]
      rw [hcongr, hf]
      simp [hp]

theorem find?_append_right {α : Type} (l1 l2 : List α) (p : α → Bool)
    (h : ∀ x ∈ l1, p x = false) : (l1 ++ l2).find? p = l2.find? p := by
  induction l1 with
  | nil => rfl
  | cons a t ih =>
    rw [List.cons_append, List.find?_cons_of_neg _ (by simp [h a (List.mem_cons_self a t)]),
      ih (fun x hx => h x (List.mem_cons_of_mem a hx))]

theorem initCdStep_players (g pid : Uuid) (now : Nat) (db : DB) (q : Player) :
    (initCdStep g pid now db q).players = db.players := rfl

theorem foldl_initCdStep_players (g pid : Uuid) (now : Nat) :
    ∀ (l : List Player) (db : DB), (l.foldl (initCdStep g pid now) db).players = db.players
  | [], _ => rfl
  | q :: t, db => by
    rw [List.foldl_cons, foldl_initCdStep_players g pid now t, initCdStep_players]

theorem init_players (db : DB) (g pid : Uuid) (now : Nat) :
    (initialize_commander_damage_for_player_in_tx db g pid now).players = db.players :=
  foldl_initCdStep_players g pid now _ db

/-- Success inversion for `join_game`: what the joined player and the committed
database look like. -/
theorem join_game_ok_inv {db : DB} {g : Uuid} {u : UserId} {now : Nat} {pl : Player}
    {db' : DB} (h : join_game db g u now = (.ok pl, db')) :
    ∃ gm, db.games.find? (fun x => x.id == g) = some gm ∧
      (gm.status == "finished") = false ∧
      (db.players.filter (fun p => p.gameId == g && p.clerkUserId == u)).length = 0 ∧
      (gPlayers db g).length < MAX_PLAYERS_PER_GAME ∧
      pl = ⟨db.nextId, g, u, gm.startingLife, ((gPlayers db g).length : Int) + 1, false⟩ ∧
      db' = initialize_commander_damage_for_player_in_tx
        { db with players := db.players ++ [pl], nextId := db.nextId + 1 } g pl.id now := by
  simp only [join_game, join_game_in_tx, get_game_by_id, freshId] at h
  rcases hf : db.games.find? (fun x => x.id == g) with _ | gm <;> rw [hf] at h <;>
    dsimp only at h
  · simp at h
  · by_cases h1 : gm.status == "finished"
    · simp [h1] at h
    · rw [if_neg (by simpa using h1)] at h
      by_cases h2 : (db.players.filter (fun p => p.gameId == g && p.clerkUserId == u)).length > 0
      · rw [if_pos h2] at h; simp at h
      · rw [if_neg h2] at h
        by_cases h3 : MAX_PLAYERS_PER_GAME ≤ (db.players.filter (fun p => p.gameId == g)).length
        · rw [if_pos h3] at h; simp at h
        · rw [if_neg h3] at h
          simp only [Prod.mk.injEq, Except.ok.injEq] at h
          obtain ⟨hpl, hdb⟩ := h
          refine ⟨gm, hf, by simpa using h1, by omega, by
            simpa [gPlayers] using lt_of_not_le h3, hpl.symm, ?_⟩
          rw [← hdb, ← hpl]

/-- Success inversion for `update_player_life`. -/
theorem update_player_life_ok_inv {db : DB} {pid : Uuid} {c : Int} {now : Nat}
    {p' : Player} {lc : LifeChange} {db' : DB}
    (h : update_player_life db pid c now = (.ok (p', lc), db')) :
    ∃ p, db.players.find? (fun q => q.id == pid) = some p ∧
      p' = { p with currentLife := p.currentLife + c } ∧
      lc = ⟨db.nextId, p.gameId, p.id, c, p.currentLife + c, now⟩ ∧
      db' = { db with
        players := db.players.map (fun q =>
          if q.id == pid then { q with currentLife := q.currentLife + c } else q),
        lifeChanges := db.lifeChanges ++ [⟨db.nextId, p.gameId, p.id, c, p.currentLife + c, now⟩],
        nextId := db.nextId + 1 } := by
  simp only [update_player_life, freshId] at h
  rcases hf : db.players.find? (fun q => q.id == pid) with _ | p <;> rw [hf] at h <;>
    dsimp only at h
  · simp at h
  · simp only [Prod.mk.injEq, Except.ok.injEq] at h
    obtain ⟨⟨hp, hlc⟩, hdb⟩ := h
    exact ⟨p, hf, hp.symm, hlc.symm, hdb.symm⟩

/-- Forward evaluation of `update_player_life` when the player row exists. -/
theorem update_player_life_ok_of_found {db : DB} {pid : Uuid} (c : Int) (now : Nat)
    {p : Player} (hf : db.players.find? (fun q => q.id == pid) = some p) :
    update_player_life db pid c now =
      (.ok ({ p with currentLife := p.currentLife + c },
        ⟨db.nextId, p.gameId, p.id, c, p.currentLife + c, now⟩),
        { db with
          players := db.players.map (fun q =>
            if q.id == pid then { q with currentLife := q.currentLife + c } else q),
          lifeChanges :=
            db.lifeChanges ++ [⟨db.nextId, p.gameId, p.id, c, p.currentLife + c, now⟩],
          nextId := db.nextId + 1 }) := by
  simp only [update_player_life, freshId, hf]

/-- Success inversion for `leave_game`. -/
theorem leave_game_ok_inv {db : DB} {g : Uuid} {u : UserId} {db' : DB}
    (h : leave_game db g u = (.ok (), db')) :
    ∃ gm pr, db.games.find? (fun x => x.id == g) = some gm ∧
      (gm.status == "finished") = false ∧
      db.players.find? (fun p => p.gameId == g && p.clerkUserId == u) = some pr ∧
      db' = { db with
        commanderDamage := db.commanderDamage.filter (fun cd =>
          !(cd.gameId == g && (cd.fromPlayerId == pr.id || cd.toPlayerId == pr.id))),
        players := (db.players.filter
            (fun p => !(p.gameId == g && p.clerkUserId == u))).map
          (leaveShift g pr) } := by
  simp only [leave_game, get_game_by_id] at h
  rcases hf : db.games.find? (fun x => x.id == g) with _ | gm <;> rw [hf] at h <;>
    dsimp only at h
  · simp at h
  · by_cases h1 : gm.status == "finished"
    · simp [h1] at h
    · rw [if_neg (by simpa using h1)] at h
      rcases hp : db.players.find? (fun p => p.gameId == g && p.clerkUserId == u) with _ | pr <;>
        rw [hp] at h <;> dsimp only at h
      · simp at h
      · simp only [Prod.mk.injEq] at h
        exact ⟨gm, pr, hf, by simpa using h1, hp, h.2.symm⟩

/-- Success inversion for `create_game`. -/
theorem create_game_ok_inv {db : DB} {name : String} {sl : Int} {creator : UserId}
    {now : Nat} {gm : Game} {db' : DB}
    (h : create_game db name sl creator now = (.ok gm, db')) :
    gm = ⟨db.nextId, name, "active", sl, now, none⟩ ∧
    ∃ pl, join_game_in_tx { db with games := db.games ++ [gm], nextId := db.nextId + 1 }
      gm.id creator now = (.ok pl, db') := by
  simp only [create_game, freshId] at h
  split_ifs at h with h1
  · simp at h
  · rcases hj : join_game_in_tx ({ db with games := db.games ++ [⟨db.nextId, name, "active", sl, now, none⟩], nextId := db.nextId + 1 }) db.nextId creator now with ⟨res, db3⟩
    rw [hj] at h
    cases res with
    | error e => simp at h
    | ok pl =>
      simp only [Prod.mk.injEq, Except.ok.injEq] at h
      obtain ⟨hgm, hdb⟩ := h
      subst hgm
      exact ⟨rfl, pl, by rw [hj, hdb]⟩

/-! ### Concrete databases used by witnesses -/

/-- The empty store. -/
def sample0 : DB := ⟨[], [], [], [], 0⟩

/-- Game 0 ("Pod1", starting life 40) created by user 100 (player id 1). -/
def sampleGame : DB := (create_game sample0 "Pod1" 40 100 0).2

/-- User 101 joined (player id 2). -/
def sampleTwo : DB := (join_game sampleGame 0 101 1).2

/-- User 102 joined (player id 5). -/
def sampleThree : DB := (join_game sampleTwo 0 102 2).2

/-- The three-player game after `end_game`. -/
def sampleEnded : DB := (end_game sampleThree 0 5).2

/-- Game 0 filled to 8 players. -/
def sampleFull : DB :=
  (join_game (join_game (join_game (join_game (join_game (join_game (join_game
    sampleGame 0 101 1).2 0 102 1).2 0 103 1).2 0 104 1).2 0 105 1).2 0 106 1).2
    0 107 1).2

/-! ### C4: join_game error taxonomy -/

/-- C4: `join_game` fails with the spec's `NotFound` (code: `ApiError::GameNotFound`)
when the game is missing, `Invalid` (`BadRequest "Cannot join finished game"`)
when the game is finished, `Conflict` (`BadRequest "User already in game"`) when
the user is already seated, and `Capacity` (`BadRequest "Game is full (max 8
players)"`) when 8 players are seated — in source order — and in every failure
case the returned database is the unchanged input (the transaction rolls back,
so no player row and no commander-damage rows are created). -/
theorem c4_join_game_error_taxonomy (db : DB) (g : Uuid) (u : UserId) (now : Nat) :
    (db.games.find? (fun x => x.id == g) = none →
      join_game db g u now = (.error .gameNotFound, db)) ∧
    (∀ gm, db.games.find? (fun x => x.id == g) = some gm → gm.status = "finished" →
      join_game db g u now = (.error (.badRequest "Cannot join finished game"), db)) ∧
    (∀ gm, db.games.find? (fun x => x.id == g) = some gm → gm.status ≠ "finished" →
      (∃ p ∈ db.players, p.gameId = g ∧ p.clerkUserId = u) →
      join_game db g u now = (.error (.badRequest "User already in game"), db)) ∧
    (∀ gm, db.games.find? (fun x => x.id == g) = some gm → gm.status ≠ "finished" →
      (¬ ∃ p ∈ db.players, p.gameId = g ∧ p.clerkUserId = u) →
      MAX_PLAYERS_PER_GAME ≤ (gPlayers db g).length →
      join_game db g u now = (.error (.badRequest "Game is full (max 8 players)"), db)) := by
  refine ⟨?_, ?_, ?_, ?_⟩
  · intro h
    unfold join_game join_game_in_tx get_game_by_id
    rw [h]
  · intro gm hfind hst
    unfold join_game join_game_in_tx get_game_by_id
    rw [hfind]
    simp [hst]
  · intro gm hfind hst hex
    have hb : (gm.status == "finished") = false := beq_eq_false_iff_ne.mpr hst
    have hseated :
        0 < (db.players.filter (fun p => p.gameId == g && p.clerkUserId == u)).length := by
      rw [length_filter_pos_iff]
      obtain ⟨p, hp, h1, h2⟩ := hex
      exact ⟨p, hp, by simp [h1, h2]⟩
    unfold join_game join_game_in_tx get_game_by_id
    rw [hfind]
    simp [hb, hseated]
  · intro gm hfind hst hnex hcap
    have hb : (gm.status == "finished") = false := beq_eq_false_iff_ne.mpr hst
    have hseated :
        ¬ 0 < (db.players.filter (fun p => p.gameId == g && p.clerkUserId == u)).length := by
      rw [length_filter_pos_iff]
      intro ⟨p, hp, hpe⟩
      simp only [Bool.and_eq_true, beq_iff_eq] at hpe
      exact hnex ⟨p, hp, hpe.1, hpe.2⟩
    unfold join_game join_game_in_tx get_game_by_id
    rw [hfind]
    have hcap' : MAX_PLAYERS_PER_GAME ≤
        (db.players.filter (fun p => p.gameId == g)).length := hcap
    simp [hb, hseated, hcap']

/-! ### C5: update_commander_damage validation -/

/-- C5: `update_commander_damage` rejects a negative total (in particular −1)
with `Invalid` (`BadRequest`), a total above 999 (in particular 1000) with
`Invalid`, an unknown slot with `Invalid`, a player not in the game with
`Invalid`, and `from == to` with `Invalid`; in every rejection the returned
database is the unchanged input, so the commander-damage table is untouched. -/
theorem c5_update_commander_damage_validation (db : DB) (g fr toP : Uuid)
    (num dmg : Int) (now : Nat) :
    (dmg < 0 → update_commander_damage db g fr toP num dmg now =
      (.error (.badRequest "Commander damage cannot be negative"), db)) ∧
    (¬ dmg < 0 → 999 < dmg → update_commander_damage db g fr toP num dmg now =
      (.error (.badRequest "Commander damage cannot exceed 999"), db)) ∧
    (num ≠ 1 → num ≠ 2 → ∃ msg, update_commander_damage db g fr toP num dmg now =
      (.error (.badRequest msg), db)) ∧
    ((¬ ∃ p ∈ db.players, p.id = fr ∧ p.gameId = g) ∨
      (¬ ∃ p ∈ db.players, p.id = toP ∧ p.gameId = g) →
      ∃ msg, update_commander_damage db g fr toP num dmg now =
        (.error (.badRequest msg), db)) ∧
    (fr = toP → ∃ msg, update_commander_damage db g fr toP num dmg now =
      (.error (.badRequest msg), db)) := by
  refine ⟨?_, ?_, ?_, ?_, ?_⟩
  · intro h
    simp only [update_commander_damage]
    simp [h]
  · intro h0 h9
    simp only [update_commander_damage]
    simp [h0, h9]
  · intro h1 h2
    simp only [update_commander_damage]
    split_ifs with c1 c2 c3 c4 c5 <;> try exact ⟨_, rfl⟩
    exfalso
    simp only [Bool.and_eq_true, bne_iff_ne, ne_eq] at c3
    exact c3 ⟨h1, h2⟩
  · intro h
    simp only [update_commander_damage]
    split_ifs with c1 c2 c3 c4 c5 <;> try exact ⟨_, rfl⟩
    exfalso
    simp only [Bool.or_eq_true, Bool.not_eq_true', decide_eq_false_iff_not,
      not_or, not_not] at c4
    rcases h with h | h
    · obtain ⟨p, hp, hpe⟩ := (length_filter_pos_iff _ _).mp c4.1
      simp only [Bool.and_eq_true, beq_iff_eq] at hpe
      exact h ⟨p, hp, hpe.1, hpe.2⟩
    · obtain ⟨p, hp, hpe⟩ := (length_filter_pos_iff _ _).mp c4.2
      simp only [Bool.and_eq_true, beq_iff_eq] at hpe
      exact h ⟨p, hp, hpe.1, hpe.2⟩
  · intro h
    simp only [update_commander_damage]
    split_ifs with c1 c2 c3 c4 c5 <;> try exact ⟨_, rfl⟩
    exfalso
    exact c5 (by simp [h])

/-- C4 (witness): the four failure modes at concrete stores — missing game,
finished game, already-seated user, and a full (8-player) game. -/
theorem c4_join_game_error_taxonomy_witness :
    join_game sample0 0 100 0 = (.error .gameNotFound, sample0) ∧
    join_game sampleEnded 0 999 9 =
      (.error (.badRequest "Cannot join finished game"), sampleEnded) ∧
    join_game sampleThree 0 101 9 =
      (.error (.badRequest "User already in game"), sampleThree) ∧
    join_game sampleFull 0 999 9 =
      (.error (.badRequest "Game is full (max 8 players)"), sampleFull) :=
  ⟨(c4_join_game_error_taxonomy sample0 0 100 0).1 (by decide),
   (c4_join_game_error_taxonomy sampleEnded 0 999 9).2.1
     ⟨0, "Pod1", "finished", 40, 0, some 5⟩ (by decide) (by decide),
   (c4_join_game_error_taxonomy sampleThree 0 101 9).2.2.1
     ⟨0, "Pod1", "active", 40, 0, none⟩ (by decide) (by decide) (by decide),
   (c4_join_game_error_taxonomy sampleFull 0 999 9).2.2.2
     ⟨0, "Pod1", "active", 40, 0, none⟩ (by decide) (by decide) (by decide) (by decide)⟩

/-- C5 (witness): the rejections at a concrete three-player store — total −1,
total 1000, slot 3, a player outside the game, and `from = to`. -/
theorem c5_update_commander_damage_validation_witness :
    update_commander_damage sampleThree 0 1 2 1 (-1) 9 =
      (.error (.badRequest "Commander damage cannot be negative"), sampleThree) ∧
    update_commander_damage sampleThree 0 1 2 1 1000 9 =
      (.error (.badRequest "Commander damage cannot exceed 999"), sampleThree) ∧
    (∃ msg, update_commander_damage sampleThree 0 1 2 3 5 9 =
      (.error (.badRequest msg), sampleThree)) ∧
    (∃ msg, update_commander_damage sampleThree 0 77 2 1 5 9 =
      (.error (.badRequest msg), sampleThree)) ∧
    (∃ msg, update_commander_damage sampleThree 0 1 1 1 5 9 =
      (.error (.badRequest msg), sampleThree)) :=
  ⟨(c5_update_commander_damage_validation sampleThree 0 1 2 1 (-1) 9).1 (by decide),
   (c5_update_commander_damage_validation sampleThree 0 1 2 1 1000 9).2.1
     (by decide) (by decide),
   (c5_update_commander_damage_validation sampleThree 0 1 2 3 5 9).2.2.1
     (by decide) (by decide),
   (c5_update_commander_damage_validation sampleThree 0 77 2 1 5 9).2.2.2.1
     (Or.inl (by decide)),
   (c5_update_commander_damage_validation sampleThree 0 1 1 1 5 9).2.2.2.2 rfl⟩

/-! ### C9: initial state of a newly seated player -/

/-- C9: every player created by a successful `join_game` starts with
`current_life` equal to the game's `starting_life` and `is_eliminated = false`;
the creator seated by `create_game` does too (the game row is inserted with the
requested starting life and the creator is seated through the same join path). -/
theorem c9_new_player_initial_state (db : DB) (g : Uuid) (u : UserId) (now : Nat) :
    (∀ gm pl db', db.games.find? (fun x => x.id == g) = some gm →
      join_game db g u now = (.ok pl, db') →
      pl.currentLife = gm.startingLife ∧ pl.isEliminated = false) ∧
    (∀ name sl gm db', gamesFresh db →
      create_game db name sl u now = (.ok gm, db') →
      gm.startingLife = sl ∧ ∃ p ∈ db'.players, p.gameId = gm.id ∧ p.clerkUserId = u ∧
        p.currentLife = sl ∧ p.isEliminated = false) := by
  constructor
  · intro gm pl db' hfind hjoin
    obtain ⟨gm2, hf2, _, _, _, hpl, _⟩ := join_game_ok_inv hjoin
    rw [hfind] at hf2
    cases hf2
    rw [hpl]
    exact ⟨rfl, rfl⟩
  · intro name sl gm db' hfresh hcreate
    obtain ⟨hgm, pl, hjoin⟩ := create_game_ok_inv hcreate
    obtain ⟨gm2, hf2, _, _, _, hpl, hdb'⟩ := join_game_ok_inv hjoin
    have hfind2 : ({ db with games := db.games ++ [gm], nextId := db.nextId + 1 } : DB).games.find?
        (fun x => x.id == gm.id) = some gm := by
      show (db.games ++ [gm]).find? (fun x => x.id == gm.id) = some gm
      rw [find?_append_right db.games [gm] _ (fun x hx => by
        have hxlt := hfresh x hx
        simp only [hgm, beq_eq_false_iff_ne, ne_eq]
        show ¬ x.id = db.nextId
        exact Nat.ne_of_lt hxlt)]
      simp
    rw [hfind2] at hf2
    cases hf2
    constructor
    · rw [hgm]
    · refine ⟨pl, ?_, ?_⟩
      · rw [hdb', init_players]
        exact List.mem_append_right _ (List.mem_singleton.mpr rfl)
      · rw [hpl, hgm]
        exact ⟨rfl, rfl, rfl, rfl⟩

/-- C9 (witness): the creator of "Pod1" (starting life 40) and the next joiner
both start at life 40, not eliminated. -/
theorem c9_new_player_initial_state_witness :
    (∃ pl db', join_game sampleGame 0 101 1 = (.ok pl, db') ∧
      pl.currentLife = 40 ∧ pl.isEliminated = false) ∧
    (∃ gm db', create_game sample0 "Pod1" 40 100 0 = (.ok gm, db') ∧
      gm.startingLife = 40 ∧ ∃ p ∈ db'.players, p.gameId = gm.id ∧ p.clerkUserId = 100 ∧
        p.currentLife = 40 ∧ p.isEliminated = false) := by
  constructor
  · refine ⟨_, _, rfl, ?_⟩
    have h := (c9_new_player_initial_state sampleGame 0 101 1).1
      ⟨0, "Pod1", "active", 40, 0, none⟩ _ _ (by decide) rfl
    exact h
  · refine ⟨_, _, rfl, ?_⟩
    have h := (c9_new_player_initial_state sample0 0 100 0).2 "Pod1" 40 _ _
      (by intro x hx; cases hx) rfl
    exact h

/-! ### C10: update_player_life frame conditions -/

/-- C10: `update_player_life` checks only that the player row exists (neither
the game's status nor the elimination flag), changes only that player's
`current_life`, appends exactly one `LifeChange` row recording the post-update
total, and leaves games, commander damage, every other player, and every
non-life field of every player unchanged. -/
theorem c10_update_player_life_frame (db : DB) (pid : Uuid) (c : Int) (now : Nat) :
    (db.players.find? (fun q => q.id == pid) = none →
      update_player_life db pid c now = (.error .playerNotFound, db)) ∧
    (∀ p, db.players.find? (fun q => q.id == pid) = some p →
      ∃ db', update_player_life db pid c now =
        (.ok ({ p with currentLife := p.currentLife + c },
          ⟨db.nextId, p.gameId, p.id, c, p.currentLife + c, now⟩), db') ∧
        db'.games = db.games ∧
        db'.commanderDamage = db.commanderDamage ∧
        db'.lifeChanges = db.lifeChanges ++
          [⟨db.nextId, p.gameId, p.id, c, p.currentLife + c, now⟩] ∧
        db'.players.length = db.players.length ∧
        (∀ q ∈ db.players, q.id ≠ pid → q ∈ db'.players) ∧
        (∀ q' ∈ db'.players, ∃ q ∈ db.players, q'.id = q.id ∧ q'.gameId = q.gameId ∧
          q'.clerkUserId = q.clerkUserId ∧ q'.position = q.position ∧
          q'.isEliminated = q.isEliminated)) := by
  constructor
  · intro h
    simp only [update_player_life, h]
  · intro p hf
    refine ⟨_, update_player_life_ok_of_found c now hf, rfl, rfl, rfl, by simp, ?_, ?_⟩
    · intro q hq hqid
      refine List.mem_map.mpr ⟨q, hq, ?_⟩
      rw [if_neg (by simpa using hqid)]
    · intro q' hq'
      obtain ⟨q, hq, hfq⟩ := List.mem_map.mp hq'
      refine ⟨q, hq, ?_⟩
      by_cases hid : q.id == pid
      · rw [if_pos hid] at hfq
        rw [← hfq]
        exact ⟨rfl, rfl, rfl, rfl, rfl⟩
      · rw [if_neg hid] at hfq
        rw [← hfq]
        exact ⟨rfl, rfl, rfl, rfl, rfl⟩

/-- C10 (witness): updating player 1's life by −7 in the three-player store
succeeds (the store's game status and elimination flags are never consulted),
and the frame conditions hold there. -/
theorem c10_update_player_life_frame_witness :
    ∃ db', update_player_life sampleThree 1 (-7) 9 =
      (.ok (⟨1, 0, 100, 33, 1, false⟩, ⟨10, 0, 1, -7, 33, 9⟩), db') ∧
      db'.games = sampleThree.games ∧
      db'.commanderDamage = sampleThree.commanderDamage ∧
      db'.lifeChanges = sampleThree.lifeChanges ++ [⟨10, 0, 1, -7, 33, 9⟩] ∧
      db'.players.length = sampleThree.players.length := by
  obtain ⟨db', heq, hg, hcd, hlc, hlen, _, _⟩ :=
    (c10_update_player_life_frame sampleThree 1 (-7) 9).2
      ⟨1, 0, 100, 40, 1, false⟩ (by decide)
  exact ⟨db', heq, hg, hcd, hlc, hlen⟩

/-! ### C6: life update round trip -/

/-- C6: applying `update_player_life` with +5 and then −5 to an existing player
restores the original life total and appends exactly the two `LifeChange` rows,
whose change amounts sum to zero and which each record the post-update total. -/
theorem c6_life_update_roundtrip (db : DB) (pid : Uuid) (now1 now2 : Nat)
    (p p1 p2 : Player) (lc1 lc2 : LifeChange) (db1 db2 : DB)
    (hf : db.players.find? (fun q => q.id == pid) = some p)
    (h1 : update_player_life db pid 5 now1 = (.ok (p1, lc1), db1))
    (h2 : update_player_life db1 pid (-5) now2 = (.ok (p2, lc2), db2)) :
    p2.currentLife = p.currentLife ∧
    db2.lifeChanges = db.lifeChanges ++ [lc1, lc2] ∧
    lc1.changeAmount + lc2.changeAmount = 0 ∧
    lc1.newLifeTotal = p1.currentLife ∧ lc2.newLifeTotal = p2.currentLife := by
  obtain ⟨q, hfq, hp1, hlc1, hdb1⟩ := update_player_life_ok_inv h1
  rw [hf] at hfq
  cases hfq
  have hf1 : db1.players.find? (fun q => q.id == pid) =
      some { p with currentLife := p.currentLife + 5 } := by
    rw [hdb1]
    exact find?_map_life pid 5 db.players p hf
  obtain ⟨q1, hfq1, hp2, hlc2, hdb2⟩ := update_player_life_ok_inv h2
  rw [hf1] at hfq1
  cases hfq1
  refine ⟨?_, ?_, ?_, ?_, ?_⟩
  · rw [hp2]
    show p.currentLife + 5 + (-5) = p.currentLife
    omega
  · have e2 : db2.lifeChanges = db1.lifeChanges ++ [lc2] := by rw [hdb2, hlc2]
    have e1 : db1.lifeChanges = db.lifeChanges ++ [lc1] := by rw [hdb1, hlc1]
    rw [e2, e1, List.append_assoc]
    rfl
  · rw [hlc1, hlc2]
    show (5 : Int) + (-5) = 0
    omega
  · rw [hlc1, hp1]
  · rw [hlc2, hp2]

/-- C6 (witness): the round trip on player 1 of the three-player store. -/
theorem c6_life_update_roundtrip_witness :
    ∃ p p1 lc1 db1 p2 lc2 db2,
      sampleThree.players.find? (fun q => q.id == 1) = some p ∧
      update_player_life sampleThree 1 5 11 = (.ok (p1, lc1), db1) ∧
      update_player_life db1 1 (-5) 12 = (.ok (p2, lc2), db2) ∧
      p2.currentLife = p.currentLife ∧
      db2.lifeChanges = sampleThree.lifeChanges ++ [lc1, lc2] ∧
      lc1.changeAmount + lc2.changeAmount = 0 := by
  refine ⟨_, _, _, _, _, _, _, rfl, rfl, rfl, ?_⟩
  have h := c6_life_update_roundtrip sampleThree 1 11 12 _ _ _ _ _ _ _ rfl rfl rfl
  exact ⟨h.1, h.2.1, h.2.2.1⟩

/-! ### C3: persistence commits before the event is published -/

/-- A handler outcome is well-sequenced when a failed mutation publishes
nothing and a successful one emits exactly one commit — of the database state
the handler returns — followed by one published event. -/
def sequenced : HResult → Prop
  | (.error _, _, tr) => ∀ m, Effect.publish m ∉ tr
  | (.ok _, db', tr) => ∃ m, tr = [.commit db', .publish m]

theorem sequenced_handle_life_update (db : DB) (pid : Uuid) (c : Int) (g : Uuid)
    (now : Nat) : sequenced (handle_life_update db pid c g now) := by
  unfold handle_life_update
  rcases hu : update_player_life db pid c now with ⟨res, db2⟩
  cases res with
  | error e => intro m hm; simp at hm
  | ok pl => obtain ⟨p, lc⟩ := pl; exact ⟨_, rfl⟩

theorem sequenced_handle_join_game (db : DB) (u : UserId) (g : Uuid) (now : Nat) :
    sequenced (handle_join_game db u g now) := by
  unfold handle_join_game
  rcases hu : join_game db g u now with ⟨res, db2⟩
  cases res with
  | error e => intro m hm; simp at hm
  | ok pl => exact ⟨_, rfl⟩

theorem sequenced_handle_leave_game (db : DB) (pid : Uuid) (g : Uuid) :
    sequenced (handle_leave_game db pid g) := by
  unfold handle_leave_game
  rcases hf : (get_players_in_game db g).find? (fun p => p.id == pid) with _ | player <;>
    rw [hf] <;> dsimp only
  · intro m hm; simp at hm
  · rcases hl : leave_game db g player.clerkUserId with ⟨res, db2⟩
    cases res with
    | error e => intro m hm; simp at hm
    | ok u => cases u; exact ⟨_, rfl⟩

theorem sequenced_handle_end_game (db : DB) (g : Uuid) (now : Nat) :
    sequenced (handle_end_game db g now) := by
  unfold handle_end_game
  rcases he : end_game db g now with ⟨res, db2⟩
  cases res with
  | error e => intro m hm; simp at hm
  | ok gm => exact ⟨_, rfl⟩

theorem sequenced_handle_set_commander_damage (db : DB) (fr toP : Uuid)
    (num dmg : Int) (g : Uuid) (now : Nat) :
    sequenced (handle_set_commander_damage db fr toP num dmg g now) := by
  unfold handle_set_commander_damage
  rcases hg : get_game_by_id db g with e | game <;> dsimp only
  · intro m hm; simp at hm
  · by_cases hst : (game.status != "active") = true
    · rw [if_pos hst]
      intro m hm; simp at hm
    · rw [if_neg hst]
      rcases hu : update_commander_damage db g fr toP num dmg now with ⟨res, db2⟩
      cases res with
      | error e => intro m hm; simp at hm
      | ok upd => exact ⟨_, rfl⟩

theorem sequenced_handle_update_commander_damage (db : DB) (fr toP : Uuid)
    (num amt : Int) (g : Uuid) (now : Nat) :
    sequenced (handle_update_commander_damage db fr toP num amt g now) := by
  unfold handle_update_commander_damage
  rcases hg : get_game_by_id db g with e | game <;> dsimp only
  · intro m hm; simp at hm
  · by_cases hst : (game.status != "active") = true
    · rw [if_pos hst]
      intro m hm; simp at hm
    · rw [if_neg hst]
      rcases hu : update_commander_damage db g fr toP num
          (((findCd (get_commander_damage_for_game db g) fr toP num).map
            (·.damage)).getD 0 + amt) now with ⟨res, db2⟩
      cases res with
      | error e => intro m hm; simp at hm
      | ok upd => exact ⟨_, rfl⟩

theorem sequenced_handle_toggle_partner (db : DB) (pid : Uuid) (en : Bool)
    (g : Uuid) (now : Nat) : sequenced (handle_toggle_partner db pid en g now) := by
  unfold handle_toggle_partner
  rcases hg : get_game_by_id db g with e | game <;> dsimp only
  · intro m hm; simp at hm
  · by_cases hst : (game.status != "active") = true
    · rw [if_pos hst]
      intro m hm; simp at hm
    · rw [if_neg hst]
      rcases hu : toggle_partner db g pid en now with ⟨res, db2⟩
      cases res with
      | error e => intro m hm; simp at hm
      | ok u => cases u; exact ⟨_, rfl⟩

theorem sequenced_handlers_update_life (db : DB) (g pid : Uuid) (c : Int)
    (now : Nat) : sequenced (handlers_update_life db g pid c now) := by
  unfold handlers_update_life
  by_cases habs : 100 < c.natAbs
  · rw [if_pos habs]
    intro m hm; simp at hm
  · rw [if_neg habs]
    rcases hg : get_game_by_id db g with e | game <;> dsimp only
    · intro m hm; simp at hm
    · by_cases hst : (game.status != "active") = true
      · rw [if_pos hst]
        intro m hm; simp at hm
      · rw [if_neg hst]
        rcases hu : update_player_life db pid c now with ⟨res, db2⟩
        cases res with
        | error e => intro m hm; simp at hm
        | ok pl => obtain ⟨p, lc⟩ := pl; exact ⟨_, rfl⟩

/-- C3: for every mutation handler (life update over both the socket and the
HTTP path, join, leave, commander-damage change, partner toggle, game end), a
failed mutation publishes no event, and a successful one emits its transaction
commit first and the single corresponding broadcast after it — persistence is
fully committed before the event is published. (`GetGameState` is excluded: it
is a read, not a mutation.) -/
theorem c3_commit_before_publish (db : DB) (g : Uuid) (now : Nat) :
    (∀ r : WebSocketRequest, r ≠ .getGameState →
      sequenced (handle_websocket_message db (some r) g now)) ∧
    (∀ pid c, sequenced (handlers_update_life db g pid c now)) := by
  constructor
  · intro r hr
    cases r with
    | updateLife pid c => exact sequenced_handle_life_update db pid c g now
    | joinGame u => exact sequenced_handle_join_game db u g now
    | leaveGame pid => exact sequenced_handle_leave_game db pid g
    | getGameState => exact absurd rfl hr
    | endGame => exact sequenced_handle_end_game db g now
    | setCommanderDamage fr toP num dmg =>
      exact sequenced_handle_set_commander_damage db fr toP num dmg g now
    | updateCommanderDamage fr toP num amt =>
      exact sequenced_handle_update_commander_damage db fr toP num amt g now
    | togglePartner pid en => exact sequenced_handle_toggle_partner db pid en g now
  · intro pid c
    exact sequenced_handlers_update_life db g pid c now

/-- C3 (witness): a successful life update over the socket on the concrete
three-player store commits first and then publishes exactly one event; a failed
join (game missing) publishes nothing. -/
theorem c3_commit_before_publish_witness :
    (∃ m, (handle_websocket_message sampleThree
        (some (WebSocketRequest.updateLife 1 5)) 0 9).2.2 =
      [Effect.commit (handle_websocket_message sampleThree
        (some (WebSocketRequest.updateLife 1 5)) 0 9).2.1, Effect.publish m]) ∧
    (∀ m, Effect.publish m ∉
      (handle_websocket_message sample0 (some (WebSocketRequest.joinGame 7)) 0 9).2.2) := by
  constructor
  · exact (c3_commit_before_publish sampleThree 0 9).1
      (WebSocketRequest.updateLife 1 5) (by decide)
  · exact (c3_commit_before_publish sample0 0 9).1
      (WebSocketRequest.joinGame 7) (by decide)

/-! ### C2: the commander-damage matrix -/

theorem initCdStep_cd_mono (g pid : Uuid) (now : Nat) (db : DB) (q : Player)
    {e : CommanderDamage} (he : e ∈ db.commanderDamage) :
    e ∈ (initCdStep g pid now db q).commanderDamage :=
  List.mem_append_left _ (List.mem_append_left _ he)

theorem foldl_initCdStep_cd_mono (g pid : Uuid) (now : Nat) :
    ∀ (l : List Player) (db : DB) {e : CommanderDamage}, e ∈ db.commanderDamage →
      e ∈ ((l.foldl (initCdStep g pid now) db)).commanderDamage
  | [], _, _, he => he
  | q :: t, db, _, he =>
    foldl_initCdStep_cd_mono g pid now t (initCdStep g pid now db q)
      (initCdStep_cd_mono g pid now db q he)

theorem initCdStep_key_out (g pid : Uuid) (now : Nat) (db : DB) (q : Player) :
    cdZero (initCdStep g pid now db q) g pid q.id 1 :=
  ⟨⟨db.nextId, g, pid, q.id, 1, 0, now, now⟩,
    List.mem_append_left _ (List.mem_append_right _ (List.mem_singleton.mpr rfl)),
    rfl, rfl, rfl, rfl, rfl⟩

theorem initCdStep_key_in (g pid : Uuid) (now : Nat) (db : DB) (q : Player) :
    cdZero (initCdStep g pid now db q) g q.id pid 1 :=
  ⟨⟨db.nextId + 1, g, q.id, pid, 1, 0, now, now⟩,
    List.mem_append_right _ (List.mem_singleton.mpr rfl),
    rfl, rfl, rfl, rfl, rfl⟩

theorem foldl_initCdStep_keys (g pid : Uuid) (now : Nat) :
    ∀ (l : List Player) (db : DB) (q : Player), q ∈ l →
      cdZero (l.foldl (initCdStep g pid now) db) g pid q.id 1 ∧
      cdZero (l.foldl (initCdStep g pid now) db) g q.id pid 1
  | q' :: t, db, q, hq => by
    rcases List.mem_cons.mp hq with rfl | hq
    · constructor
      · obtain ⟨e, he, hp⟩ := initCdStep_key_out g pid now db q
        exact ⟨e, foldl_initCdStep_cd_mono g pid now t _ he, hp⟩
      · obtain ⟨e, he, hp⟩ := initCdStep_key_in g pid now db q
        exact ⟨e, foldl_initCdStep_cd_mono g pid now t _ he, hp⟩
    · exact foldl_initCdStep_keys g pid now t (initCdStep g pid now db q') q hq

theorem init_eq_foldl (db : DB) (g pid : Uuid) (now : Nat) :
    initialize_commander_damage_for_player_in_tx db g pid now =
      (db.players.filter (fun p => p.gameId == g && p.id != pid)).foldl
        (initCdStep g pid now) db := rfl

theorem insertOrIgnoreCd_cd_mono (db : DB) (g fr toP : Uuid) (num : Int) (now : Nat)
    {e : CommanderDamage} (he : e ∈ db.commanderDamage) :
    e ∈ (insertOrIgnoreCd db g fr toP num now).commanderDamage := by
  unfold insertOrIgnoreCd
  split_ifs
  · exact he
  · exact List.mem_append_left _ he

theorem insertOrIgnoreCd_key (db : DB) (g fr toP : Uuid) (num : Int) (now : Nat) :
    cdKey (insertOrIgnoreCd db g fr toP num now) g fr toP num := by
  unfold insertOrIgnoreCd
  split_ifs with h
  · obtain ⟨e, he, hp⟩ := (length_filter_pos_iff _ _).mp h
    simp only [Bool.and_eq_true, beq_iff_eq] at hp
    exact ⟨e, he, hp.1.1.1, hp.1.1.2, hp.1.2, hp.2⟩
  · exact ⟨⟨db.nextId, g, fr, toP, num, 0, now, now⟩,
      List.mem_append_right _ (List.mem_singleton.mpr rfl), rfl, rfl, rfl, rfl⟩

theorem insertOrIgnoreCd_of_key (db : DB) (g fr toP : Uuid) (num : Int) (now : Nat)
    (h : cdKey db g fr toP num) : insertOrIgnoreCd db g fr toP num now = db := by
  obtain ⟨e, he, h1, h2, h3, h4⟩ := h
  have hpos : (db.commanderDamage.filter (fun cd => cd.gameId == g &&
      cd.fromPlayerId == fr && cd.toPlayerId == toP &&
      cd.commanderNumber == num)).length > 0 := by
    rw [gt_iff_lt, length_filter_pos_iff]
    exact ⟨e, he, by simp [h1, h2, h3, h4]⟩
  unfold insertOrIgnoreCd
  rw [if_pos hpos]

theorem togglePartnerStep_cd_mono (g pid : Uuid) (now : Nat) (db : DB) (q : Player)
    {e : CommanderDamage} (he : e ∈ db.commanderDamage) :
    e ∈ (togglePartnerStep g pid now db q).commanderDamage :=
  insertOrIgnoreCd_cd_mono _ g q.id pid 2 now
    (insertOrIgnoreCd_cd_mono db g pid q.id 2 now he)

theorem togglePartnerStep_keys (g pid : Uuid) (now : Nat) (db : DB) (q : Player) :
    cdKey (togglePartnerStep g pid now db q) g pid q.id 2 ∧
    cdKey (togglePartnerStep g pid now db q) g q.id pid 2 := by
  constructor
  · obtain ⟨e, he, hp⟩ := insertOrIgnoreCd_key db g pid q.id 2 now
    exact ⟨e, insertOrIgnoreCd_cd_mono _ g q.id pid 2 now he, hp⟩
  · exact insertOrIgnoreCd_key _ g q.id pid 2 now

theorem foldl_togglePartnerStep_cd_mono (g pid : Uuid) (now : Nat) :
    ∀ (l : List Player) (db : DB) {e : CommanderDamage}, e ∈ db.commanderDamage →
      e ∈ ((l.foldl (togglePartnerStep g pid now) db)).commanderDamage
  | [], _, _, he => he
  | q :: t, db, _, he =>
    foldl_togglePartnerStep_cd_mono g pid now t (togglePartnerStep g pid now db q)
      (togglePartnerStep_cd_mono g pid now db q he)

theorem foldl_togglePartnerStep_keys (g pid : Uuid) (now : Nat) :
    ∀ (l : List Player) (db : DB) (q : Player), q ∈ l →
      cdKey (l.foldl (togglePartnerStep g pid now) db) g pid q.id 2 ∧
      cdKey (l.foldl (togglePartnerStep g pid now) db) g q.id pid 2
  | q' :: t, db, q, hq => by
    rcases List.mem_cons.mp hq with rfl | hq
    · obtain ⟨hout, hin⟩ := togglePartnerStep_keys g pid now db q
      constructor
      · obtain ⟨e, he, hp⟩ := hout
        exact ⟨e, foldl_togglePartnerStep_cd_mono g pid now t _ he, hp⟩
      · obtain ⟨e, he, hp⟩ := hin
        exact ⟨e, foldl_togglePartnerStep_cd_mono g pid now t _ he, hp⟩
    · exact foldl_togglePartnerStep_keys g pid now t (togglePartnerStep g pid now db q') q hq

theorem foldl_togglePartnerStep_fix (g pid : Uuid) (now : Nat) :
    ∀ (l : List Player) (db : DB),
      (∀ q ∈ l, cdKey db g pid q.id 2 ∧ cdKey db g q.id pid 2) →
      l.foldl (togglePartnerStep g pid now) db = db
  | [], _, _ => rfl
  | q :: t, db, h => by
    have hq := h q (List.mem_cons_self q t)
    have hstep : togglePartnerStep g pid now db q = db := by
      unfold togglePartnerStep
      rw [insertOrIgnoreCd_of_key db g pid q.id 2 now hq.1,
        insertOrIgnoreCd_of_key db g q.id pid 2 now hq.2]
    rw [List.foldl_cons, hstep]
    exact foldl_togglePartnerStep_fix g pid now t db
      (fun q' hq' => h q' (List.mem_cons_of_mem q hq'))

theorem togglePartnerStep_players (g pid : Uuid) (now : Nat) (db : DB) (q : Player) :
    (togglePartnerStep g pid now db q).players = db.players := by
  unfold togglePartnerStep insertOrIgnoreCd
  split_ifs <;> rfl

theorem foldl_togglePartnerStep_players (g pid : Uuid) (now : Nat) :
    ∀ (l : List Player) (db : DB),
      (l.foldl (togglePartnerStep g pid now) db).players = db.players
  | [], _ => rfl
  | q :: t, db => by
    rw [List.foldl_cons, foldl_togglePartnerStep_players g pid now t,
      togglePartnerStep_players]

/-- Success inversion for `toggle_partner` when enabling. -/
theorem toggle_partner_enable_inv {db : DB} {g pid : Uuid} {now : Nat} {db' : DB}
    (h : toggle_partner db g pid true now = (.ok (), db')) :
    db' = (db.players.filter (fun p => p.gameId == g && p.id != pid)).foldl
      (togglePartnerStep g pid now) db := by
  simp only [toggle_partner] at h
  split_ifs at h with h1
  · simp at h
  · simp only [Prod.mk.injEq] at h
    exact h.2.symm

/-- Success inversion for `toggle_partner` when disabling. -/
theorem toggle_partner_disable_inv {db : DB} {g pid : Uuid} {now : Nat} {db' : DB}
    (h : toggle_partner db g pid false now = (.ok (), db')) :
    db' = { db with commanderDamage := db.commanderDamage.filter (fun cd =>
      !(cd.gameId == g && cd.commanderNumber == 2 &&
        (cd.fromPlayerId == pid || cd.toPlayerId == pid))) } := by
  simp only [toggle_partner] at h
  split_ifs at h with h1 h2
  · simp at h
  · exact h2.elim
  · simp only [Prod.mk.injEq] at h
    exact h.2.symm

/-- C2: after a successful join every ordered pair of distinct co-present
players still has a slot-1 entry with damage 0 (the bootstrap inserts the new
pairs at 0 and touches no existing entry); after `toggle_partner(A, true)`
slot-2 entries exist in both directions between A and every other player;
re-enabling when those entries already exist leaves the commander-damage table
untouched; and after `toggle_partner(A, false)` no slot-2 entry in the game has
A as source or destination. -/
theorem c2_commander_damage_matrix (db : DB) (g : Uuid) (now : Nat) :
    (∀ u pl db', playersFresh db → slot1ZeroSym db g →
      join_game db g u now = (.ok pl, db') → slot1ZeroSym db' g) ∧
    (∀ A db', toggle_partner db g A true now = (.ok (), db') →
      ∀ b ∈ gPlayers db' g, b.id ≠ A →
        cdKey db' g A b.id 2 ∧ cdKey db' g b.id A 2) ∧
    (∀ A db', (∀ b ∈ gPlayers db g, b.id ≠ A →
        cdKey db g A b.id 2 ∧ cdKey db g b.id A 2) →
      toggle_partner db g A true now = (.ok (), db') →
      db'.commanderDamage = db.commanderDamage) ∧
    (∀ A db', toggle_partner db g A false now = (.ok (), db') →
      ∀ e ∈ db'.commanderDamage, ¬(e.gameId = g ∧ e.commanderNumber = 2 ∧
        (e.fromPlayerId = A ∨ e.toPlayerId = A))) := by
  refine ⟨?_, ?_, ?_, ?_⟩
  · intro u pl db' hfresh hinv hjoin
    obtain ⟨gm, _, _, _, _, hpl, hdb'⟩ := join_game_ok_inv hjoin
    have hplgame : pl.gameId = g := by rw [hpl]
    have hplid : pl.id = db.nextId := by rw [hpl]
    have hplayers : db'.players = db.players ++ [pl] := by
      rw [hdb', init_players]
    have hgp : gPlayers db' g = gPlayers db g ++ [pl] := by
      unfold gPlayers
      rw [hplayers, List.filter_append]
      simp [hplgame]
    have hmono : ∀ e ∈ db.commanderDamage, e ∈ db'.commanderDamage := by
      intro e he
      rw [hdb', init_eq_foldl]
      exact foldl_initCdStep_cd_mono g pl.id now _ _ he
    have hexist : ∀ a ∈ gPlayers db g,
        a ∈ ({ db with players := db.players ++ [pl], nextId := db.nextId + 1 } : DB).players.filter
          (fun p => p.gameId == g && p.id != pl.id) := by
      intro a ha
      obtain ⟨hamem, hag⟩ := List.mem_filter.mp ha
      refine List.mem_filter.mpr ⟨List.mem_append_left _ hamem, ?_⟩
      have haid : a.id < db.nextId := hfresh a hamem
      simp only [Bool.and_eq_true, bne_iff_ne, ne_eq, hplid]
      exact ⟨by simpa using hag, Nat.ne_of_lt haid⟩
    intro a ha b hb hab
    rw [hgp] at ha hb
    rcases List.mem_append.mp ha with ha | ha <;> rcases List.mem_append.mp hb with hb | hb
    · obtain ⟨e, he, hp⟩ := hinv a ha b hb hab
      exact ⟨e, hmono e he, hp⟩
    · have hb' : b = pl := List.mem_singleton.mp hb
      have hkeys := foldl_initCdStep_keys g pl.id now _
        ({ db with players := db.players ++ [pl], nextId := db.nextId + 1 } : DB)
        a (hexist a ha)
      rw [hb', hdb', init_eq_foldl]
      exact hkeys.2
    · have ha' : a = pl := List.mem_singleton.mp ha
      have hkeys := foldl_initCdStep_keys g pl.id now _
        ({ db with players := db.players ++ [pl], nextId := db.nextId + 1 } : DB)
        b (hexist b hb)
      rw [ha', hdb', init_eq_foldl]
      exact hkeys.1
    · have ha' : a = pl := List.mem_singleton.mp ha
      have hb' : b = pl := List.mem_singleton.mp hb
      exact absurd (by rw [ha', hb']) hab
  · intro A db' htog b hb hbid
    have hdb' := toggle_partner_enable_inv htog
    have hplayers : db'.players = db.players := by
      rw [hdb', foldl_togglePartnerStep_players]
    have hbmem : b ∈ db.players.filter (fun p => p.gameId == g && p.id != A) := by
      unfold gPlayers at hb
      rw [hplayers] at hb
      obtain ⟨hbm, hbg⟩ := List.mem_filter.mp hb
      exact List.mem_filter.mpr ⟨hbm, by
        simp only [Bool.and_eq_true, bne_iff_ne, ne_eq]
        exact ⟨by simpa using hbg, hbid⟩⟩
    rw [hdb']
    exact foldl_togglePartnerStep_keys g A now _ db b hbmem
  · intro A db' hkeys htog
    have hdb' := toggle_partner_enable_inv htog
    have hfix : (db.players.filter (fun p => p.gameId == g && p.id != A)).foldl
        (togglePartnerStep g A now) db = db := by
      apply foldl_togglePartnerStep_fix
      intro q hq
      obtain ⟨hqm, hqb⟩ := List.mem_filter.mp hq
      simp only [Bool.and_eq_true, bne_iff_ne, ne_eq] at hqb
      exact hkeys q (List.mem_filter.mpr ⟨hqm, by simpa using hqb.1⟩) hqb.2
    rw [hdb', hfix]
  · intro A db' htog e he
    have hdb' := toggle_partner_disable_inv htog
    rw [hdb'] at he
    obtain ⟨_, hbool⟩ := List.mem_filter.mp he
    simp only [Bool.not_eq_true', Bool.and_eq_true, Bool.or_eq_true, beq_iff_eq,
      Bool.and_eq_false_iff, Bool.or_eq_false_iff, beq_eq_false_iff_ne, ne_eq] at hbool
    intro ⟨h1, h2, h3⟩
    rcases hbool with hbool | hbool
    · rcases hbool with hb | hb
      · exact hb h1
      · exact hb h2
    · rcases h3 with h3 | h3
      · exact hbool.1 h3
      · exact hbool.2 h3

instance (db : DB) (g fr toP : Uuid) (num : Int) : Decidable (cdKey db g fr toP num) := by
  unfold cdKey
  infer_instance

instance (db : DB) (g fr toP : Uuid) (num : Int) : Decidable (cdZero db g fr toP num) := by
  unfold cdZero
  infer_instance

instance (db : DB) (g : Uuid) : Decidable (slot1ZeroSym db g) := by
  unfold slot1ZeroSym
  infer_instance

instance (db : DB) : Decidable (playersFresh db) := by
  unfold playersFresh
  infer_instance

instance (db : DB) : Decidable (gamesFresh db) := by
  unfold gamesFresh
  infer_instance

/-- A partner-enabled variant of the three-player store (player 2 enabled). -/
def sampleToggled : DB := (toggle_partner sampleThree 0 2 true 5).2

/-- C2 (witness): the slot-1 matrix with damage 0 after the third join; the
symmetric slot-2 entries for player 2 after enabling; re-enabling leaves the
table untouched; disabling removes every slot-2 entry referencing player 2. -/
theorem c2_commander_damage_matrix_witness :
    slot1ZeroSym sampleThree 0 ∧
    (∀ b ∈ gPlayers sampleToggled 0, b.id ≠ 2 →
      cdKey sampleToggled 0 2 b.id 2 ∧ cdKey sampleToggled 0 b.id 2 2) ∧
    (toggle_partner sampleToggled 0 2 true 6).2.commanderDamage =
      sampleToggled.commanderDamage ∧
    (∀ e ∈ (toggle_partner sampleToggled 0 2 false 7).2.commanderDamage,
      ¬(e.gameId = 0 ∧ e.commanderNumber = 2 ∧
        (e.fromPlayerId = 2 ∨ e.toPlayerId = 2))) :=
  ⟨(c2_commander_damage_matrix sampleTwo 0 2).1 102 ⟨5, 0, 102, 40, 3, false⟩
      sampleThree (by decide) (by decide) rfl,
   (c2_commander_damage_matrix sampleThree 0 5).2.1 2 sampleToggled rfl,
   (c2_commander_damage_matrix sampleToggled 0 6).2.2.1 2
      (toggle_partner sampleToggled 0 2 true 6).2 (by decide) rfl,
   (c2_commander_damage_matrix sampleToggled 0 7).2.2.2 2
      (toggle_partner sampleToggled 0 2 false 7).2 rfl⟩

/-! ### C1: dense positions under joins and leaves -/

theorem join_posList {db : DB} {g : Uuid} {u : UserId} {now : Nat} {pl : Player}
    {db' : DB} (h : join_game db g u now = (.ok pl, db')) :
    posList db' g = posList db g ++ [((gPlayers db g).length : Int) + 1] := by
  obtain ⟨gm, _, _, _, _, hpl, hdb'⟩ := join_game_ok_inv h
  have hplayers : db'.players = db.players ++ [pl] := by rw [hdb', init_players]
  have hplg : pl.gameId = g := by rw [hpl]
  unfold posList gPlayers
  rw [hplayers, List.filter_append]
  have hsing : [pl].filter (fun p => p.gameId == g) = [pl] := by simp [hplg]
  rw [hsing, List.map_append]
  have hps : pl.position = ((db.players.filter (fun p => p.gameId == g)).length : Int) + 1 := by
    rw [hpl]
    rfl
  rw [List.map_singleton, hps]

theorem joinAll_dense (g : Uuid) (now : Nat) :
    ∀ (users : List UserId) (db : DB) (k : Nat) (db' : DB),
      posList db g = ascInt 1 k → joinAll db g now users = .ok db' →
      posList db' g = ascInt 1 (k + users.length)
  | [], db, k, db', hpos, hjoin => by
    obtain rfl : db = db' := Except.ok.inj hjoin
    simpa using hpos
  | u :: rest, db, k, db', hpos, hjoin => by
    simp only [joinAll] at hjoin
    rcases hj : join_game db g u now with ⟨res, db1⟩
    rw [hj] at hjoin
    cases res with
    | error e => simp at hjoin
    | ok pl =>
      have hstep := join_posList hj
      have hlen : (gPlayers db g).length = k := by
        have h1 : (posList db g).length = k := by rw [hpos, ascInt_length]
        simpa [posList] using h1
      rw [hpos, hlen] at hstep
      have h1 : posList db1 g = ascInt 1 (k + 1) := by
        rw [hstep, ascInt_snoc]
        have : (1 : Int) + (k : Int) = (k : Int) + 1 := by ring
        rw [this]
      have h2 := joinAll_dense g now rest db1 (k + 1) db' h1 hjoin
      rw [h2, List.length_cons]
      have : k + 1 + rest.length = k + (rest.length + 1) := by omega
      rw [this]

theorem dec_positions :
    ∀ (l : List Player) (b : Int) (k : Nat), l.map (·.position) = ascInt b k →
      ∀ c : Int, c < b →
      l.map (fun q => if c < q.position then q.position - 1 else q.position) =
        ascInt (b - 1) k
  | [], b, k, hpos, c, _ => by
    cases k with
    | zero => rfl
    | succ k => simp [ascInt] at hpos
  | a :: t, b, k, hpos, c, hc => by
    cases k with
    | zero => simp [ascInt] at hpos
    | succ k =>
      simp only [ascInt, List.map_cons, List.cons.injEq] at hpos
      obtain ⟨hab, ht⟩ := hpos
      simp only [List.map_cons]
      rw [if_pos (by rw [hab]; exact hc : c < a.position)]
      rw [dec_positions t (b + 1) k ht c (by omega)]
      have hb1 : b + 1 - 1 = (b - 1) + 1 := by ring
      rw [hb1]
      show (a.position - 1) :: ascInt ((b - 1) + 1) k = (b - 1) :: ascInt ((b - 1) + 1) k
      rw [hab]

theorem leave_positions_dense :
    ∀ (l : List Player) (a : Int) (k : Nat) (u : UserId) (pr : Player),
      l.map (·.position) = ascInt a k →
      l.find? (fun p => p.clerkUserId == u) = some pr →
      (l.map (·.clerkUserId)).Nodup →
      (l.filter (fun p => p.clerkUserId != u)).map
        (fun q => if pr.position < q.position then q.position - 1 else q.position) =
        ascInt a (k - 1)
  | [], _, _, _, _, _, hfind, _ => by simp at hfind
  | p0 :: t, a, k, u, pr, hpos, hfind, hnd => by
    cases k with
    | zero => simp [ascInt] at hpos
    | succ k =>
      simp only [ascInt, List.map_cons, List.cons.injEq] at hpos
      obtain ⟨hp0, ht⟩ := hpos
      rw [find?_cons_eq] at hfind
      simp only [List.map_cons, List.nodup_cons] at hnd
      obtain ⟨hnotin, hndt⟩ := hnd
      by_cases hu : (p0.clerkUserId == u) = true
      · rw [if_pos hu] at hfind
        obtain rfl := Option.some.inj hfind
        rw [filter_cons_eq (fun p => p.clerkUserId != u) p0 t, if_neg (by simpa using hu)]
        have htkeep : t.filter (fun p => p.clerkUserId != u) = t := by
          apply List.filter_eq_self.mpr
          intro q hq
          simp only [bne_iff_ne, ne_eq]
          intro hequ
          refine hnotin ?_
          have hmem : q.clerkUserId ∈ t.map (·.clerkUserId) := List.mem_map_of_mem _ hq
          have hpu : p0.clerkUserId = u := by simpa using hu
          rw [hpu, ← hequ]
          exact hmem
        rw [htkeep]
        have hdec := dec_positions t (a + 1) k ht p0.position (by rw [hp0]; omega)
        rw [hdec]
        have ha1 : a + 1 - 1 = a := by ring
        rw [ha1]
        rfl
      · rw [if_neg hu] at hfind
        rw [filter_cons_eq (fun p => p.clerkUserId != u) p0 t, if_pos (by simpa using hu)]
        have hprmem : pr ∈ t := List.mem_of_find?_eq_some hfind
        have hprpos : a + 1 ≤ pr.position := by
          have hm : pr.position ∈ t.map (·.position) := List.mem_map_of_mem _ hprmem
          rw [ht] at hm
          exact ascInt_mem_le (a + 1) k _ hm
        simp only [List.map_cons]
        rw [if_neg (by rw [hp0]; omega : ¬ pr.position < p0.position)]
        cases k with
        | zero =>
          have : t = [] := List.map_eq_nil_iff.mp (by rw [ht]; rfl)
          rw [this] at hfind
          simp at hfind
        | succ k2 =>
          have hrec := leave_positions_dense t (a + 1) (k2 + 1) u pr ht hfind hndt
          rw [hrec]
          show p0.position :: ascInt (a + 1) k2 = ascInt a (k2 + 1)
          rw [hp0]
          rfl

theorem find?_filter_and :
    ∀ (l : List Player) (g : Uuid) (u : UserId),
      l.find? (fun p => p.gameId == g && p.clerkUserId == u) =
        (l.filter (fun p => p.gameId == g)).find? (fun p => p.clerkUserId == u)
  | [], _, _ => rfl
  | a :: t, g, u => by
    rw [find?_cons_eq (fun p => p.gameId == g && p.clerkUserId == u) a t,
      filter_cons_eq (fun p => p.gameId == g) a t]
    by_cases hg : (a.gameId == g) = true
    · by_cases hu : (a.clerkUserId == u) = true
      · rw [if_pos (by simp [hg, hu]), if_pos hg,
          find?_cons_eq (fun p => p.clerkUserId == u) a _, if_pos hu]
      · rw [if_neg (by simp [hg, hu]), if_pos hg,
          find?_cons_eq (fun p => p.clerkUserId == u) a _, if_neg hu,
          find?_filter_and t g u]
    · rw [if_neg (by simp [hg]), if_neg hg, find?_filter_and t g u]

theorem leaveShift_gameId (g : Uuid) (pr p : Player) :
    (leaveShift g pr p).gameId = p.gameId := by
  unfold leaveShift
  split <;> rfl

theorem leaveShift_id (g : Uuid) (pr p : Player) :
    (leaveShift g pr p).id = p.id := by
  unfold leaveShift
  split <;> rfl

theorem leaveShift_position_of_game (g : Uuid) (pr p : Player)
    (hp : (p.gameId == g) = true) :
    (leaveShift g pr p).position =
      if pr.position < p.position then p.position - 1 else p.position := by
  unfold leaveShift
  by_cases hlt : pr.position < p.position
  · rw [if_pos (by simp [hp, hlt]), if_pos hlt]
  · rw [if_neg (by simp [hp, hlt]), if_neg hlt]

theorem gPlayers_after_leave :
    ∀ (l : List Player) (g : Uuid) (u : UserId) (pr : Player),
      ((l.filter (fun p => !(p.gameId == g && p.clerkUserId == u))).map
          (leaveShift g pr)).filter (fun p => p.gameId == g) =
        ((l.filter (fun p => p.gameId == g)).filter
          (fun p => p.clerkUserId != u)).map (leaveShift g pr)
  | [], _, _, _ => rfl
  | a :: t, g, u, pr => by
    have hsg : (leaveShift g pr a).gameId = a.gameId := leaveShift_gameId g pr a
    rw [filter_cons_eq (fun p => !(p.gameId == g && p.clerkUserId == u)) a t,
      filter_cons_eq (fun p => p.gameId == g) a t]
    by_cases hg : (a.gameId == g) = true
    · by_cases hu : (a.clerkUserId == u) = true
      · rw [if_neg (by simp [hg, hu]), if_pos hg,
          filter_cons_eq (fun p => p.clerkUserId != u) a _, if_neg (by simpa using hu)]
        exact gPlayers_after_leave t g u pr
      · rw [if_pos (by simp [hg, hu]), if_pos hg, List.map_cons,
          filter_cons_eq (fun p => p.gameId == g) (leaveShift g pr a) _,
          if_pos (show ((leaveShift g pr a).gameId == g) = true by rw [hsg]; exact hg),
          filter_cons_eq (fun p => p.clerkUserId != u) a _, if_pos (by simpa using hu),
          List.map_cons, gPlayers_after_leave t g u pr]
    · rw [if_pos (by simp [hg]), if_neg hg, List.map_cons,
        filter_cons_eq (fun p => p.gameId == g) (leaveShift g pr a) _,
        if_neg (show ¬((leaveShift g pr a).gameId == g) = true by rw [hsg]; exact hg)]
      exact gPlayers_after_leave t g u pr

/-- C1: starting from any state in which a game's positions (in row order) are
exactly `1..k`, any run of successful sequential joins yields positions exactly
`1..k+N`; and a successful leave from a state with positions `1..n` (and, per
the spec invariant, pairwise-distinct users) leaves the surviving players in
their previous relative order with positions exactly `1..n-1` — each position
above the leaver's decremented by one. -/
theorem c1_positions_dense (db : DB) (g : Uuid) (now : Nat) :
    (∀ (users : List UserId) (k : Nat) (db' : DB),
      posList db g = ascInt 1 k → joinAll db g now users = .ok db' →
      posList db' g = ascInt 1 (k + users.length)) ∧
    (∀ (u : UserId) (n : Nat) (db' : DB),
      posList db g = ascInt 1 n →
      ((gPlayers db g).map (·.clerkUserId)).Nodup →
      leave_game db g u = (.ok (), db') →
      posList db' g = ascInt 1 (n - 1) ∧
      (gPlayers db' g).map (·.id) =
        ((gPlayers db g).filter (fun p => p.clerkUserId != u)).map (·.id)) := by
  constructor
  · intro users k db' hpos hjoin
    exact joinAll_dense g now users db k db' hpos hjoin
  · intro u n db' hpos hnd hleave
    obtain ⟨gm, pr, hfg, hst, hfind, hdb'⟩ := leave_game_ok_inv hleave
    have hfind' : (gPlayers db g).find? (fun p => p.clerkUserId == u) = some pr := by
      rw [find?_filter_and] at hfind
      exact hfind
    have hgp' : gPlayers db' g =
        ((gPlayers db g).filter (fun p => p.clerkUserId != u)).map (leaveShift g pr) := by
      unfold gPlayers
      rw [hdb']
      exact gPlayers_after_leave db.players g u pr
    constructor
    · unfold posList
      rw [hgp', List.map_map]
      have hcong : ((gPlayers db g).filter (fun p => p.clerkUserId != u)).map
            ((·.position) ∘ leaveShift g pr) =
          ((gPlayers db g).filter (fun p => p.clerkUserId != u)).map
            (fun q => if pr.position < q.position then q.position - 1 else q.position) := by
        apply List.map_congr_left
        intro q hq
        have hqg : (q.gameId == g) = true :=
          (List.mem_filter.mp (List.mem_filter.mp hq).1).2
        exact leaveShift_position_of_game g pr q hqg
      rw [hcong]
      exact leave_positions_dense (gPlayers db g) 1 n u pr hpos hfind' hnd
    · rw [hgp', List.map_map]
      apply List.map_congr_left
      intro q _
      exact leaveShift_id g pr q

/-- C1 (witness): two joins onto the one-player game give positions [1, 2, 3];
the creator then leaving gives positions [1, 2] with the two later joiners
surviving in order. -/
theorem c1_positions_dense_witness :
    (∃ db', joinAll sampleGame 0 1 [101, 102] = .ok db' ∧
      posList db' 0 = ascInt 1 3) ∧
    (∃ db', leave_game sampleThree 0 100 = (.ok (), db') ∧
      posList db' 0 = ascInt 1 2 ∧
      (gPlayers db' 0).map (·.id) =
        ((gPlayers sampleThree 0).filter (fun p => p.clerkUserId != 100)).map (·.id)) := by
  constructor
  · refine ⟨_, rfl, ?_⟩
    exact (c1_positions_dense sampleGame 0 1).1 [101, 102] 1 _ (by decide) rfl
  · refine ⟨_, rfl, ?_, ?_⟩
    · exact ((c1_positions_dense sampleThree 0 1).2 100 3 _ (by decide) (by decide) rfl).1
    · exact ((c1_positions_dense sampleThree 0 1).2 100 3 _ (by decide) (by decide) rfl).2

end Conclave
